import Mathlib

/-!
# InspIRCd server linking and channel history

A shallow embedding of `SpanningTreeUtilities` and `ServerSocketListener`
(`src/modules/m_spanningtree/utils.cpp`), of `CmdBuilder::UpdateTags`
(`src/modules/m_spanningtree/misccommands.cpp`) and of the history list of
`src/modules/m_chanhistory.cpp`, together with theorems about lookup, routing,
admission, configuration loading, tag serialization and the history limit.

Conventions of the embedding.

* `std::string` is a `String`, one `Char` per C++ `char`.  Every string stands for
  the text of a C string (no embedded NUL), so `s.c_str()` is `s`.
* A `TreeServer*`, `TreeSocket*` or `User*` is a natural number (the address);
  the null pointer is `none`.  Objects are read through a heap, a total function
  from addresses to records: every non-null pointer the code follows is live.
* A `Sock->WriteLine(data)` call is recorded as the pair `(Sock, data)`; a
  function that writes returns the calls it made, in order.
* A `throw CoreException(msg)` is recorded as `thrown = some msg`, next to the
  state the object is left in when the exception leaves the function.
* Functions, constants and types that `utils.cpp` uses but does not define
  (`IsSID`, `FindNick`, `MatchCIDR`, `aptosa`, `Time`, `IS_LOCAL`) are fields of
  `ServerInstance`, so every theorem holds for all of them.
* The C++ parameters `prefix` and `omit` are spelled `pfx` and `omitName`.
-/

namespace SpanningTree

/-! ## Data model -/

abbrev TreeServerPtr := Nat
abbrev TreeSocketPtr := Nat
abbrev UserPtr := Nat

/-- One `TreeServer` object, as seen through its accessors `GetName()`,
`GetID()`, `GetRoute()`, `GetSocket()`, `ChildCount()` and `GetChild(n)`. -/
structure TreeServer where
  ServerName : String
  ID : String
  Route : Option TreeServerPtr
  Socket : Option TreeSocketPtr
  Children : List TreeServerPtr

/-- The fields of a `User` that the routing code reads. -/
structure User where
  nick : String
  server : String

/-- Modelled from the spec: `server_hash` is declared in `utils.h`, which is not
part of the sources; the index is a finite map from a key string to a node, looked
up by exact match. -/
abbrev server_hash := List (String × TreeServerPtr)

/-- Lookup `index.find(key)`: the mapped node, `none` for `index.end()`. -/
def server_hash.find (index : server_hash) (key : String) : Option TreeServerPtr :=
  (List.find? (fun e => e.1 == key) index).map (fun e => e.2)

/-- The parts of the global `ServerInstance` that the code calls into.  These
functions are defined outside `utils.cpp` and are taken as given. -/
structure ServerInstance where
  /-- `ServerInstance->IsSID(str)`: is `str` in short-ID format. -/
  IsSID : String → Bool
  /-- `ServerInstance->Config->GetSID()`: the short ID of the local server. -/
  ConfigSID : String
  /-- `ServerInstance->FindNick(nick)`: the connected user with that nickname. -/
  FindNick : String → Option UserPtr
  /-- The `User` object behind a `User*`. -/
  users : UserPtr → User
  /-- `IS_LOCAL(user)`. -/
  IS_LOCAL : UserPtr → Bool
  /-- `irc::sockets::MatchCIDR(address, cidr_mask)`. -/
  MatchCIDR : String → String → Bool
  /-- `irc::sockets::aptosa(addr, port, &sa)`: is `addr` a literal address. -/
  aptosa : String → Int → Bool
  /-- `ServerInstance->Time()`. -/
  Time : Int

/-- One `<link>` tag of the configuration, as read through `getString`,
`getInt` and `getBool`. -/
structure LinkTag where
  name : String
  allowmask : String
  ipaddr : String
  port : Int
  sendpass : String
  recvpass : String
  fingerprint : String
  statshidden : Bool
  timeout : Int
  ssl : String
  bind : String
  hidden : Bool
deriving DecidableEq

/-- A `Link` object (`link.h`).  `Name` is an `irc::string`; `find('.')` and
`length()` on it see the text of the name. -/
structure Link where
  Name : String
  AllowMask : String
  IPAddr : String
  Port : Int
  SendPass : String
  RecvPass : String
  Fingerprint : String
  HiddenFromStats : Bool
  Timeout : Int
  Hook : String
  Bind : String
  Hidden : Bool
deriving DecidableEq

/-- One `<autoconnect>` tag of the configuration. -/
structure AutoconnectTag where
  period : Int
  server : String
deriving DecidableEq

/-- Modelled from the spec: `Autoconnect` is declared in `link.h`, which is not
part of the sources; the period is an integer number of seconds, the next connect
time a time stamp, and `servers` the ordered candidate list. -/
structure Autoconnect where
  Period : Int
  NextConnectTime : Int
  position : Int
  servers : List String
deriving DecidableEq

/-- The configuration read by `ReadConfiguration`: the `<link>` and
`<autoconnect>` tags in file order (`ConfValue(tag, j)` is the `j`-th one, null
past the last) and the values returned by `ReadFlag` / `ReadInteger`. -/
structure ServerConfig where
  links : List LinkTag
  autoconnects : List AutoconnectTag
  flatlinks : Bool
  hideulines : Bool
  announcets : Bool
  allowmismatch : Bool
  disablehmac : Bool
  quietbursts : Bool
  pingwarning : Int
  serverpingfreq : Int

/-- The `SpanningTreeUtilities` object, with the heap of `TreeServer` objects its
pointers refer to. -/
structure SpanningTreeUtilities where
  TreeRoot : TreeServerPtr
  serverlist : server_hash
  sidlist : server_hash
  heap : TreeServerPtr → TreeServer
  LinkBlocks : List Link
  AutoconnectBlocks : List Autoconnect
  ValidIPs : List String
  FlatLinks : Bool
  HideULines : Bool
  AnnounceTSChange : Bool
  AllowOptCommon : Bool
  ChallengeResponse : Bool
  quiet_bursts : Bool
  PingWarnTime : Int
  PingFreq : Int

/-! ## Topology table -/

/-- `SpanningTreeUtilities::FindServerID`. -/
def FindServerID (U : SpanningTreeUtilities) (id : String) : Option TreeServerPtr :=
  U.sidlist.find id

/-- `SpanningTreeUtilities::FindServer`. -/
def FindServer (SI : ServerInstance) (U : SpanningTreeUtilities) (ServerName : String) :
    Option TreeServerPtr :=
  if SI.IsSID ServerName then FindServerID U ServerName
  else U.serverlist.find ServerName

/-- `SpanningTreeUtilities::BestRouteTo`. -/
def BestRouteTo (SI : ServerInstance) (U : SpanningTreeUtilities) (ServerName : String) :
    Option TreeServerPtr :=
  if ServerName = (U.heap U.TreeRoot).ServerName ∨ ServerName = SI.ConfigSID then none
  else
    match FindServer SI U ServerName with
    | some Found => (U.heap Found).Route
    | none =>
      match SI.FindNick ServerName with
      | some u =>
        match FindServer SI U (SI.users u).server with
        | some Found => (U.heap Found).Route
        | none => none
      | none => none

/-- `TreeServer::ChildCount`. -/
def TreeServer.ChildCount (T : TreeServer) : Nat := T.Children.length

/-- `TreeServer::GetChild`: the `n`-th child, null when `n` is out of range. -/
def TreeServer.GetChild (T : TreeServer) (n : Nat) : Option TreeServerPtr := T.Children[n]?

/-! ## Router -/

/-- A recorded `Sock->WriteLine(data)` call. -/
abbrev WriteCall := TreeSocketPtr × String

/-- The loop `for (unsigned int x = start; x < start + count; x++) body(x)`
acting on a state `σ`. -/
def forLoop {σ : Type} (body : Nat → σ → σ) : Nat → Nat → σ → σ
  | 0, _, s => s
  | count + 1, x, s => forLoop body count (x + 1) (body x s)

/-- The line the routing functions build: `":" + pfx + " " + command`, then
`FullLine = FullLine + " " + params[x]` for each parameter in turn. -/
def FullLine (pfx command : String) (params : List String) : String :=
  params.foldl (fun line p => line ++ " " ++ p) (":" ++ pfx ++ " " ++ command)

/-- Body of the child loop of `DoOneToAllButSender`, for child index `x`. -/
def butSenderBody (U : SpanningTreeUtilities) (omitroute : Option TreeServerPtr)
    (omitName data : String) (x : Nat) (out : List WriteCall) : List WriteCall :=
  match (U.heap U.TreeRoot).GetChild x with
  | some Route =>
    match (U.heap Route).Socket with
    | some Sock =>
      if (U.heap Route).ServerName ≠ omitName ∧ omitroute ≠ some Route then out ++ [(Sock, data)]
      else out
    | none => out
  | none => out

/-- Body of the child loop of `DoOneToAllButSenderRaw`, for child index `x`. -/
def rawBody (U : SpanningTreeUtilities) (omitroute : Option TreeServerPtr)
    (omitName data : String) (x : Nat) (out : List WriteCall) : List WriteCall :=
  match (U.heap U.TreeRoot).GetChild x with
  | none => out
  | some Route =>
    match (U.heap Route).Socket with
    | none => out
    | some Sock =>
      if (U.heap Route).ServerName ≠ omitName ∧ omitroute ≠ some Route then
        out ++ [(Sock, data)]
      else out

/-- `SpanningTreeUtilities::DoOneToAllButSenderRaw`: the return value and the
`WriteLine` calls made. -/
def DoOneToAllButSenderRaw (SI : ServerInstance) (U : SpanningTreeUtilities)
    (data omitName : String) (_pfx _command : String) (_params : List String) :
    Bool × List WriteCall :=
  let omitroute := BestRouteTo SI U omitName
  let items := (U.heap U.TreeRoot).ChildCount
  (true, forLoop (rawBody U omitroute omitName data) items 0 [])

/-- `SpanningTreeUtilities::DoOneToAllButSender`: the return value and the
`WriteLine` calls made. -/
def DoOneToAllButSender (SI : ServerInstance) (U : SpanningTreeUtilities)
    (pfx command : String) (params : List String) (omitName : String) : Bool × List WriteCall :=
  let omitroute := BestRouteTo SI U omitName
  let line := FullLine pfx command params
  let items := (U.heap U.TreeRoot).ChildCount
  (true, forLoop (butSenderBody U omitroute omitName line) items 0 [])

/-- Body of the child loop of `DoOneToMany`, for child index `x`. -/
def toManyBody (U : SpanningTreeUtilities) (data : String) (x : Nat) (out : List WriteCall) :
    List WriteCall :=
  match (U.heap U.TreeRoot).GetChild x with
  | some Route =>
    match (U.heap Route).Socket with
    | some Sock => out ++ [(Sock, data)]
    | none => out
  | none => out

/-- `SpanningTreeUtilities::DoOneToMany`: the return value and the `WriteLine`
calls made. -/
def DoOneToMany (U : SpanningTreeUtilities) (pfx command : String) (params : List String) :
    Bool × List WriteCall :=
  let line := FullLine pfx command params
  let items := (U.heap U.TreeRoot).ChildCount
  (true, forLoop (toManyBody U line) items 0 [])

/-- `SpanningTreeUtilities::DoOneToOne`: the return value and the `WriteLine`
calls made. -/
def DoOneToOne (SI : ServerInstance) (U : SpanningTreeUtilities)
    (pfx command : String) (params : List String) (target : String) : Bool × List WriteCall :=
  match BestRouteTo SI U target with
  | some Route =>
    let line := FullLine pfx command params
    match (U.heap Route).Socket with
    | some Sock => (true, [(Sock, line)])
    | none => (true, [])
  | none => (false, [])

/-! ## Channel-scoped server list -/

/-- Modelled from the spec: `TreeServerList` is declared in `utils.h`, which is
not part of the sources; it is a map keyed by node, held as its entries
`(key, value)`. -/
abbrev TreeServerList := List (TreeServerPtr × TreeServerPtr)

/-- The keys of a `TreeServerList`. -/
def TreeServerList.keys (list : TreeServerList) : List TreeServerPtr := list.map (fun e => e.1)

/-- `SpanningTreeUtilities::AddThisServer`. -/
def AddThisServer (server : TreeServerPtr) (list : TreeServerList) : TreeServerList :=
  if server ∈ list.keys then list else list ++ [(server, server)]

/-- The parts of a `Channel` that `GetListOfServersForChannel` reads. -/
structure Channel where
  /-- The users of `c->GetUsers()`, in iteration order. -/
  GetUsers : List UserPtr
  /-- `c->GetAllPrefixChars(user)`. -/
  GetAllPrefixChars : UserPtr → String

/-- Body of the member loop of `GetListOfServersForChannel`, for member `u`. -/
def channelBody (SI : ServerInstance) (U : SpanningTreeUtilities) (c : Channel)
    (status : Char) (exempt_list : List UserPtr) (list : TreeServerList) (u : UserPtr) :
    TreeServerList :=
  if SI.IS_LOCAL u then list
  else if status ≠ Char.ofNat 0 ∧ status ∉ (c.GetAllPrefixChars u).data then list
  else if u ∉ exempt_list then
    match BestRouteTo SI U (SI.users u).server with
    | some best => AddThisServer best list
    | none => list
  else list

/-- `SpanningTreeUtilities::GetListOfServersForChannel`: the list it leaves in
`list`. -/
def GetListOfServersForChannel (SI : ServerInstance) (U : SpanningTreeUtilities) (c : Channel)
    (list : TreeServerList) (status : Char) (exempt_list : List UserPtr) : TreeServerList :=
  c.GetUsers.foldl (channelBody SI U c status exempt_list) list

/-! ## Admission filter -/

/-- What `OnAcceptReady` did with the accepted socket. -/
structure AcceptOutcome where
  /-- A `new TreeSocket(...)` was created on the accepted socket. -/
  created : Bool
  /-- `ServerInstance->SE->Close(newsock)` was called. -/
  closed : Bool
  /-- The server notice written to snomask `l`. -/
  snotice : Option String
deriving DecidableEq

/-- `ServerSocketListener::OnAcceptReady`, for the remote address `incomingip`
that `satoap` extracted from the accepted socket. -/
def OnAcceptReady (SI : ServerInstance) (U : SpanningTreeUtilities) (incomingip : String) :
    AcceptOutcome :=
  let found : Bool := decide (incomingip ∈ U.ValidIPs)
  let found : Bool :=
    if !found then U.ValidIPs.any (fun i => i == "*" || SI.MatchCIDR incomingip i) else found
  if !found then
    { created := false, closed := true,
      snotice := some ("Server connection from " ++ incomingip ++
        " denied (no link blocks with that IP address)") }
  else
    { created := true, closed := false, snotice := none }

/-! ## Link configuration -/

/-- The state `ReadConfiguration` and `RefreshIPCache` act on: the utilities
object, the lines written to the log and the host names for which a
`SecurityIPResolver` was started (its asynchronous completion is not part of
these functions). -/
structure ConfState where
  Utils : SpanningTreeUtilities
  Logs : List String
  Resolvers : List String

/-- How a call ended: `thrown` is the message of the `CoreException` that left
it (`none` for a normal return), `after` the state it left behind. -/
structure ConfResult where
  thrown : Option String
  after : ConfState

/-- `ServerInstance->Logs->Log("m_spanningtree", DEFAULT, msg)`. -/
def ConfState.Log (s : ConfState) (msg : String) : ConfState :=
  { s with Logs := s.Logs ++ [msg] }

/-- `ValidIPs.push_back(ip)`. -/
def ConfState.pushValidIP (s : ConfState) (ip : String) : ConfState :=
  { s with Utils := { s.Utils with ValidIPs := s.Utils.ValidIPs ++ [ip] } }

/-- `LinkBlocks.push_back(L)`. -/
def ConfState.pushLink (s : ConfState) (L : Link) : ConfState :=
  { s with Utils := { s.Utils with LinkBlocks := s.Utils.LinkBlocks ++ [L] } }

/-- `AutoconnectBlocks.push_back(A)`. -/
def ConfState.pushAutoconnect (s : ConfState) (A : Autoconnect) : ConfState :=
  { s with Utils := { s.Utils with AutoconnectBlocks := s.Utils.AutoconnectBlocks ++ [A] } }

/-- The `Link` that the field assignments at the head of the link loop build
from a tag. -/
def Link.ofTag (tag : LinkTag) : Link :=
  { Name := tag.name, AllowMask := tag.allowmask, IPAddr := tag.ipaddr, Port := tag.port,
    SendPass := tag.sendpass, RecvPass := tag.recvpass, Fingerprint := tag.fingerprint,
    HiddenFromStats := tag.statshidden, Timeout := tag.timeout, Hook := tag.ssl,
    Bind := tag.bind, Hidden := tag.hidden }

/-- One round of the `<link>` loop of `ReadConfiguration`: the exception thrown,
if any, and the state left. -/
def ReadLinkTag (tag : LinkTag) (s : ConfState) : Option String × ConfState :=
  let L := Link.ofTag tag
  if '.' ∉ L.Name.data then
    (some ("The link name '" ++ L.Name ++
      "' is invalid and must contain at least one '.' character"), s)
  else if L.Name.length > 64 then
    (some ("The link name '" ++ L.Name ++ "' is longer than 64 characters!"), s)
  else if L.IPAddr ≠ "" ∧ L.RecvPass ≠ "" ∧ L.SendPass ≠ "" ∧ L.Name ≠ "" ∧ L.Port ≠ 0 then
    (none, (s.pushValidIP L.IPAddr).pushLink L)
  else
    let Ls : Link × ConfState :=
      if L.IPAddr = "" then
        ({ L with IPAddr := "*" },
         (s.pushValidIP "*").Log ("Configuration warning: Link block " ++ L.Name ++
           " has no IP defined! This will allow any IP to connect as this server, and MAY not be what you want."))
      else (L, s)
    let L := Ls.1
    let s := Ls.2
    if L.RecvPass = "" then
      (some ("Invalid configuration for server '" ++ L.Name ++ "', recvpass not defined!"), s)
    else if L.SendPass = "" then
      (some ("Invalid configuration for server '" ++ L.Name ++ "', sendpass not defined!"), s)
    else if L.Name = "" then
      (some ("Invalid configuration, link tag without a name! IP address: " ++ L.IPAddr), s)
    else
      let s :=
        if L.Port = 0 then
          s.Log ("Configuration warning: Link block " ++ L.Name ++
            " has no port defined, you will not be able to /connect it.")
        else s
      (none, s.pushLink L)

/-- The `<link>` loop of `ReadConfiguration` over the tags in order; it stops at
the first exception. -/
def ReadLinkTags : List LinkTag → ConfState → Option String × ConfState
  | [], s => (none, s)
  | tag :: rest, s =>
    match ReadLinkTag tag s with
    | (none, s1) => ReadLinkTags rest s1
    | (some e, s1) => (some e, s1)

/-- Token scanner behind `spacesepstream`: `cur` is the token being read. -/
def spaceTokens : List Char → List Char → List String
  | cur, [] => if cur = [] then [] else [String.mk cur]
  | cur, c :: cs =>
    if c = ' ' then
      (if cur = [] then spaceTokens [] cs else String.mk cur :: spaceTokens [] cs)
    else spaceTokens (cur ++ [c]) cs

/-- Modelled from the spec: `irc::spacesepstream` is defined outside the
sources; successive `GetToken` calls yield the space-separated names of the
string in order. -/
def spacesepstream (s : String) : List String := spaceTokens [] s.data

/-- One round of the `<autoconnect>` loop of `ReadConfiguration`. -/
def ReadAutoconnectTag (SI : ServerInstance) (tag : AutoconnectTag) (s : ConfState) :
    Option String × ConfState :=
  let A : Autoconnect :=
    { Period := tag.period, NextConnectTime := SI.Time + tag.period, position := -1,
      servers := spacesepstream tag.server }
  if A.Period ≤ 0 then
    (some "Invalid configuration for autoconnect, period not a positive integer!", s)
  else if A.servers = [] then
    (some "Invalid configuration for autoconnect, server cannot be empty!", s)
  else (none, s.pushAutoconnect A)

/-- The `<autoconnect>` loop of `ReadConfiguration`. -/
def ReadAutoconnectTags (SI : ServerInstance) :
    List AutoconnectTag → ConfState → Option String × ConfState
  | [], s => (none, s)
  | tag :: rest, s =>
    match ReadAutoconnectTag SI tag s with
    | (none, s1) => ReadAutoconnectTags SI rest s1
    | (some e, s1) => (some e, s1)

/-- One round of the loop of `RefreshIPCache`, for link block `L`. -/
def RefreshLink (SI : ServerInstance) (s : ConfState) (L : Link) : ConfState :=
  if L.IPAddr = "" ∨ L.RecvPass = "" ∨ L.SendPass = "" ∨ L.Name = "" ∨ L.Port = 0 then
    if L.Name = "" then
      s.Log "m_spanningtree: Ignoring a malformed link block (all link blocks require a name!)"
    else
      s.Log "m_spanningtree: Ignoring a link block missing recvpass, sendpass, port or ipaddr."
  else
    let s := if L.AllowMask.length ≠ 0 then s.pushValidIP L.AllowMask else s
    if SI.aptosa L.IPAddr L.Port then s.pushValidIP L.IPAddr
    else { s with Resolvers := s.Resolvers ++ [L.IPAddr] }

/-- `SpanningTreeUtilities::RefreshIPCache`. -/
def RefreshIPCache (SI : ServerInstance) (s : ConfState) : ConfState :=
  s.Utils.LinkBlocks.foldl (RefreshLink SI)
    { s with Utils := { s.Utils with ValidIPs := [] } }

/-- `SpanningTreeUtilities::ReadConfiguration`, from the option reads on.  The
`rebind` loop before them only creates listeners in `ServerInstance->ports` and
touches nothing modelled here. -/
def ReadConfiguration (SI : ServerInstance) (Conf : ServerConfig) (_rebind : Bool)
    (s : ConfState) : ConfResult :=
  let PingWarnTime := Conf.pingwarning
  let PingFreq := Conf.serverpingfreq
  let PingFreq := if PingFreq = 0 then 60 else PingFreq
  let PingWarnTime := if PingWarnTime < 0 ∨ PingWarnTime > PingFreq - 1 then 0 else PingWarnTime
  let s : ConfState :=
    { s with Utils :=
      { s.Utils with
        FlatLinks := Conf.flatlinks, HideULines := Conf.hideulines,
        AnnounceTSChange := Conf.announcets, AllowOptCommon := Conf.allowmismatch,
        ChallengeResponse := !Conf.disablehmac, quiet_bursts := Conf.quietbursts,
        PingWarnTime := PingWarnTime, PingFreq := PingFreq,
        AutoconnectBlocks := [], LinkBlocks := [], ValidIPs := [] } }
  match ReadLinkTags Conf.links s with
  | (some e, s1) => { thrown := some e, after := s1 }
  | (none, s1) =>
    match ReadAutoconnectTags SI Conf.autoconnects s1 with
    | (some e, s2) => { thrown := some e, after := s2 }
    | (none, s2) => { thrown := none, after := RefreshIPCache SI s2 }

/-! ## Command builder (`m_spanningtree/misccommands.cpp`) -/

/-- The fields of a `CmdBuilder` that `UpdateTags` reads and writes: the message
text, the tag map as its `(key, value)` entries in map order, and the length
of the tag part at the head of `content`. -/
structure CmdBuilder where
  content : String
  tags : List (String × String)
  tagsize : Nat
deriving DecidableEq

/-- The tag loop of `UpdateTags`: `separator` and `taglist` are the loop
variables. -/
def tagLoop : List (String × String) → Char → String → String
  | [], _, taglist => taglist
  | (key, value) :: rest, separator, taglist =>
    let taglist := taglist ++ String.singleton separator
    let taglist := taglist ++ key
    let taglist := if value ≠ "" then taglist ++ String.singleton '=' ++ value else taglist
    tagLoop rest ';' taglist

/-- The local `taglist` that `UpdateTags` builds. -/
def buildTaglist (tags : List (String × String)) : String :=
  if tags ≠ [] then tagLoop tags '@' "" ++ String.singleton ' ' else ""

/-- `content.replace(0, len, str)`: the first `len` characters of `content`
(all of them when it is shorter) are replaced by `str`. -/
def replaceHead (content : String) (len : Nat) (str : String) : String :=
  str ++ String.mk (content.data.drop len)

/-- `CmdBuilder::UpdateTags`. -/
def CmdBuilder.UpdateTags (b : CmdBuilder) : CmdBuilder :=
  let taglist := buildTaglist b.tags
  { b with content := replaceHead b.content b.tagsize taglist, tagsize := taglist.length }

end SpanningTree

namespace ChanHistory

/-! ## Channel history (`m_chanhistory.cpp`) -/

/-- `MessageType`. -/
inductive MessageType where
  | MSG_PRIVMSG
  | MSG_NOTICE
deriving DecidableEq

/-- `HistoryItem`. -/
structure HistoryItem where
  ts : Int
  text : String
  type : MessageType
  tags : List (String × String)
  sourcemask : String
deriving DecidableEq

/-- `HistoryList`: `lines` is the deque, oldest line first. -/
structure HistoryList where
  lines : List HistoryItem
  maxlen : Nat
  maxtime : Nat
deriving DecidableEq

/-- The parts of `MessageDetails` that the module reads. -/
structure MessageDetails where
  text : String
  type : MessageType
  tags_out : List (String × String)
  IsCTCP : Bool

/-- `MessageTarget::TargetType`. -/
inductive TargetType where
  | TYPE_USER
  | TYPE_CHANNEL
  | TYPE_SERVER
deriving DecidableEq

/-- The parts of `MessageTarget` that the module reads. -/
structure MessageTarget where
  type : TargetType
  status : Char

/-- The constructor `HistoryItem(source, details)`, at time `now`
(`ServerInstance->Time()`) for a source whose `GetFullHost()` is `fullhost`. -/
def HistoryItem.new (now : Int) (fullhost : String) (details : MessageDetails) : HistoryItem :=
  { ts := now, text := details.text, type := details.type, tags := details.tags_out,
    sourcemask := fullhost }

/-- `ModuleChanHistory::OnUserPostMessage`: `list` is `m.ext.get(c)` for the
target channel before the call, the result is what it holds after. -/
def OnUserPostMessage (now : Int) (fullhost : String) (target : MessageTarget)
    (details : MessageDetails) (list : Option HistoryList) : Option HistoryList :=
  if target.type = TargetType.TYPE_CHANNEL ∧ target.status = Char.ofNat 0 ∧
      details.IsCTCP = false then
    match list with
    | some l =>
      let lines := l.lines ++ [HistoryItem.new now fullhost details]
      if lines.length > l.maxlen then some { l with lines := lines.tail }
      else some { l with lines := lines }
    | none => none
  else list

/-- `ModeAction`. -/
inductive ModeAction where
  | MODEACTION_DENY
  | MODEACTION_ALLOW
deriving DecidableEq

/-- The helpers `HistoryMode::OnSet` calls that are defined outside the module. -/
structure ModeHelpers where
  /-- `InspIRCd::IsValidDuration(str)`. -/
  IsValidDuration : String → Bool
  /-- `InspIRCd::Duration(str, time)`: the duration stored in `time`, `none` when
  the call returns false. -/
  Duration : String → Option Nat
  /-- `ConvToNum<unsigned int>(str)`. -/
  ConvToNum : String → Nat

/-- `std::string::find(c)`: the index of the first `c`, `none` for `npos`. -/
def find : List Char → Char → Option Nat
  | [], _ => none
  | x :: xs, c => if x = c then some 0 else (find xs c).map (fun i => i + 1)

/-- What `OnSet` did: the action returned, `ext.get(channel)` after the call,
and whether `InvalidModeParameter` was written to the source. -/
structure OnSetResult where
  action : ModeAction
  history : Option HistoryList
  numeric : Bool
deriving DecidableEq

/-- `HistoryMode::OnSet`, for a mode whose `maxlines` is given, a source whose
`IS_LOCAL` is `sourceLocal`, and `history = ext.get(channel)`.  `time` is an
`unsigned long` stored into the `unsigned int` field `maxtime`. -/
def OnSet (H : ModeHelpers) (maxlines : Nat) (sourceLocal : Bool)
    (history : Option HistoryList) (parameter : String) : OnSetResult :=
  match find parameter.data ':' with
  | none => { action := ModeAction.MODEACTION_DENY, history := history, numeric := true }
  | some colon =>
    let duration := String.mk (parameter.data.drop (colon + 1))
    if sourceLocal = true ∧ (duration.length > 10 ∨ H.IsValidDuration duration = false) then
      { action := ModeAction.MODEACTION_DENY, history := history, numeric := true }
    else
      let len := H.ConvToNum (String.mk (parameter.data.take colon))
      match H.Duration duration with
      | none => { action := ModeAction.MODEACTION_DENY, history := history, numeric := true }
      | some time =>
        if len = 0 ∨ (len > maxlines ∧ sourceLocal = true) then
          { action := ModeAction.MODEACTION_DENY, history := history, numeric := true }
        else
          let len := if len > maxlines then maxlines else len
          match history with
          | some h =>
            let lines :=
              if len < h.lines.length then h.lines.drop (h.lines.length - len) else h.lines
            { action := ModeAction.MODEACTION_ALLOW,
              history := some { lines := lines, maxlen := len, maxtime := time % 4294967296 },
              numeric := false }
          | none =>
            { action := ModeAction.MODEACTION_ALLOW,
              history := some { lines := [], maxlen := len, maxtime := time % 4294967296 },
              numeric := false }

end ChanHistory

namespace SpanningTree

/-! ## Notions used to state the theorems -/

/-- Member `u` of the channel is selected and its home server has the route
`k`: `u` is not local, carries the status character when a non-zero one is
given, is not exempt, and `BestRouteTo` of its server is `k`. -/
def memberRoute (SI : ServerInstance) (U : SpanningTreeUtilities) (c : Channel)
    (status : Char) (exempt_list : List UserPtr) (u : UserPtr) (k : TreeServerPtr) : Prop :=
  SI.IS_LOCAL u = false ∧
  (status ≠ Char.ofNat 0 → status ∈ (c.GetAllPrefixChars u).data) ∧
  u ∉ exempt_list ∧
  BestRouteTo SI U (SI.users u).server = some k

/-- A link tag on which the link loop of `ReadConfiguration` throws. -/
def LinkTag.fatal (t : LinkTag) : Prop :=
  '.' ∉ t.name.data ∨ t.name.length > 64 ∨ t.recvpass = "" ∨ t.sendpass = ""

instance LinkTag.decidableFatal (t : LinkTag) : Decidable t.fatal := by
  unfold LinkTag.fatal; infer_instance

/-- The block the link loop stores for a tag it accepts: the tag's fields, an
empty address replaced by `*`. -/
def LinkTag.stored (t : LinkTag) : Link :=
  { Link.ofTag t with IPAddr := if t.ipaddr = "" then "*" else t.ipaddr }

/-- The allow-list entries the link loop pushes while it reads a tag. -/
def LinkTag.pushed (t : LinkTag) : List String :=
  if '.' ∉ t.name.data ∨ t.name.length > 64 then []
  else if t.ipaddr = "" then ["*"]
  else if t.recvpass ≠ "" ∧ t.sendpass ≠ "" ∧ t.port ≠ 0 then [t.ipaddr]
  else []

/-- An autoconnect tag on which the autoconnect loop throws. -/
def AutoconnectTag.fatal (t : AutoconnectTag) : Prop :=
  t.period ≤ 0 ∨ spacesepstream t.server = []

instance AutoconnectTag.decidableFatal (t : AutoconnectTag) : Decidable t.fatal := by
  unfold AutoconnectTag.fatal; infer_instance

/-- The record the autoconnect loop stores for a tag it accepts. -/
def AutoconnectTag.stored (SI : ServerInstance) (t : AutoconnectTag) : Autoconnect :=
  { Period := t.period, NextConnectTime := SI.Time + t.period, position := -1,
    servers := spacesepstream t.server }

/-- The allow-list entries `RefreshIPCache` pushes for a link block: none for
a block it ignores, else the allow mask when there is one, then the address when
`aptosa` accepts it. -/
def Link.allowEntries (SI : ServerInstance) (L : Link) : List String :=
  if L.IPAddr = "" ∨ L.RecvPass = "" ∨ L.SendPass = "" ∨ L.Name = "" ∨ L.Port = 0 then []
  else
    (if L.AllowMask.length ≠ 0 then [L.AllowMask] else []) ++
      (if SI.aptosa L.IPAddr L.Port then [L.IPAddr] else [])

/-! ## Sample states used to instantiate the theorems -/

/-- A sample heap: the root `irc.local` at address 0 with children 1 and 2,
`hub.example` at 1 with a socket, `leaf.example` at 2 without one, and
`far.example` at 3 behind `hub.example`. -/
def sampleHeap : TreeServerPtr → TreeServer
  | 1 => { ServerName := "hub.example", ID := "002", Route := some 1, Socket := some 71,
           Children := [3] }
  | 2 => { ServerName := "leaf.example", ID := "003", Route := some 2, Socket := none,
           Children := [] }
  | 3 => { ServerName := "far.example", ID := "004", Route := some 1, Socket := none,
           Children := [] }
  | _ => { ServerName := "irc.local", ID := "001", Route := none, Socket := none,
           Children := [1, 2] }

/-- A sample utilities object over `sampleHeap`. -/
def sampleUtils : SpanningTreeUtilities :=
  { TreeRoot := 0,
    serverlist := [("irc.local", 0), ("hub.example", 1), ("leaf.example", 2), ("far.example", 3)],
    sidlist := [("001", 0), ("002", 1), ("003", 2), ("004", 3)],
    heap := sampleHeap,
    LinkBlocks := [{ Name := "hub.example", AllowMask := "", IPAddr := "192.0.2.1", Port := 7000,
                     SendPass := "s", RecvPass := "r", Fingerprint := "",
                     HiddenFromStats := false, Timeout := 30, Hook := "", Bind := "",
                     Hidden := false }],
    AutoconnectBlocks := [{ Period := 60, NextConnectTime := 160, position := -1,
                            servers := ["hub.example"] }],
    ValidIPs := ["192.0.2.1", "203.0.113.0/24"],
    FlatLinks := false, HideULines := false, AnnounceTSChange := false,
    AllowOptCommon := false, ChallengeResponse := true, quiet_bursts := false,
    PingWarnTime := 0, PingFreq := 60 }

/-- A sample server instance: the short IDs are `001` to `004`, the users are
`alice` (address 10, on `far.example`), `bob` (address 11, local) and `carol`
(address 12, on `hub.example`). -/
def sampleInstance : ServerInstance :=
  { IsSID := fun s => s ∈ ["001", "002", "003", "004"],
    ConfigSID := "001",
    FindNick := fun n =>
      if n = "alice" then some 10 else if n = "bob" then some 11
      else if n = "carol" then some 12 else none,
    users := fun u =>
      if u = 10 then { nick := "alice", server := "far.example" }
      else if u = 12 then { nick := "carol", server := "hub.example" }
      else { nick := "bob", server := "irc.local" },
    IS_LOCAL := fun u => u == 11,
    MatchCIDR := fun ip mask => mask == "203.0.113.0/24" && ip == "203.0.113.5",
    aptosa := fun addr _ => addr ∈ ["192.0.2.1", "192.0.2.2"],
    Time := 100 }

/-- A sample channel with the members `alice` (prefix `@`), `bob` (none) and
`carol` (prefixes `@+`). -/
def sampleChannel : Channel :=
  { GetUsers := [10, 11, 12],
    GetAllPrefixChars := fun u => if u = 10 then "@" else if u = 12 then "@+" else "" }

/-- A sample prior state: `sampleUtils`, nothing logged, no lookup started. -/
def sampleState : ConfState := { Utils := sampleUtils, Logs := [], Resolvers := [] }

/-- A sample link tag named `name`, with address, port and both secrets set. -/
def sampleLinkTag (name : String) : LinkTag :=
  { name := name, allowmask := "", ipaddr := "192.0.2.2", port := 7000, sendpass := "out",
    recvpass := "in", fingerprint := "", statshidden := false, timeout := 30, ssl := "",
    bind := "", hidden := false }

/-- A sample configuration with the given link tags and one valid autoconnect
tag. -/
def sampleConf (links : List LinkTag) : ServerConfig :=
  { links := links, autoconnects := [{ period := 60, server := "hub.example far.example" }],
    flatlinks := false, hideulines := false, announcets := false, allowmismatch := false,
    disablehmac := false, quietbursts := false, pingwarning := 15, serverpingfreq := 60 }

/-- A sample link tag named `hub.example` with no address and the given port. -/
def sampleOpenTag (port : Int) : LinkTag :=
  { sampleLinkTag "hub.example" with ipaddr := "", port := port }

/-- A sample link tag named `hub.example` with the address `192.0.2.2` and no
port. -/
def samplePortlessTag : LinkTag :=
  { sampleLinkTag "hub.example" with port := 0 }

/-- A dotted name of exactly 64 characters. -/
def name64 : String := "irc.aaaaaaaaaaaaaaaaaaaaaaaaaaaaaaaaaaaaaaaaaaaaaaaaaaaaaaaaaaaa"

/-- A dotted name of 65 characters. -/
def name65 : String := "irc.aaaaaaaaaaaaaaaaaaaaaaaaaaaaaaaaaaaaaaaaaaaaaaaaaaaaaaaaaaaaa"

/-- A sample command builder: the message `:001 PING x` behind a stale tag part
of four characters, and two tags, the second without a value. -/
def sampleBuilder : CmdBuilder :=
  { content := "@a=1 :001 PING x", tags := [("msgid", "42"), ("bot", "")], tagsize := 5 }

end SpanningTree

namespace ChanHistory

/-- Sample helpers: `1h` is the only valid duration, `2` and `100` the only
numbers. -/
def sampleHelpers : ModeHelpers :=
  { IsValidDuration := fun d => d == "1h",
    Duration := fun d => if d = "1h" then some 3600 else none,
    ConvToNum := fun n => if n = "2" then 2 else if n = "100" then 100 else 0 }

/-- A sample history line with the given text. -/
def sampleLine (text : String) : HistoryItem :=
  { ts := 100, text := text, type := MessageType.MSG_PRIVMSG, tags := [],
    sourcemask := "alice!a@far.example" }

/-- A sample history list: three lines, at its limit of three. -/
def sampleHistory : HistoryList :=
  { lines := [sampleLine "one", sampleLine "two", sampleLine "three"], maxlen := 3,
    maxtime := 3600 }

/-- A sample target: a channel, no status prefix. -/
def sampleTarget : MessageTarget :=
  { type := TargetType.TYPE_CHANNEL, status := Char.ofNat 0 }

/-- A sample channel message with the text `four`. -/
def sampleDetails : MessageDetails :=
  { text := "four", type := MessageType.MSG_PRIVMSG, tags_out := [], IsCTCP := false }

end ChanHistory

namespace SpanningTree

/-! ## Theorems: topology table -/

/-- A lookup misses exactly when the index has no entry under the key. -/
theorem server_hash.find_eq_none (index : server_hash) (key : String) :
    index.find key = none ↔ ∀ p, (key, p) ∉ index := by
  unfold server_hash.find
  rw [Option.map_eq_none', List.find?_eq_none]
  constructor
  · intro h p hp
    exact h (key, p) hp (by simp)
  · intro h e he hk
    have : e.1 = key := by simpa using hk
    exact h e.2 (by rw [← this]; exact he)

/-- A lookup that hits returns the node of an entry stored under the key. -/
theorem server_hash.find_eq_some (index : server_hash) (key : String) (p : TreeServerPtr)
    (h : index.find key = some p) : (key, p) ∈ index := by
  unfold server_hash.find at h
  rw [Option.map_eq_some'] at h
  obtain ⟨e, he, hp⟩ := h
  have hk : e.1 = key := by simpa using List.find?_some he
  have hm := List.mem_of_find?_eq_some he
  rw [← hk, ← hp]
  exact hm

/-- C8: for a string in short-ID format `FindServer` is `FindServerID` and does
not depend on the by-name index; for any other string it is the by-name index
entry for that name, null exactly when the index has no entry for it. -/
theorem FindServer_dispatch (SI : ServerInstance) (U : SpanningTreeUtilities) (name : String) :
    (SI.IsSID name = true →
      FindServer SI U name = FindServerID U name ∧
      ∀ index : server_hash,
        FindServer SI { U with serverlist := index } name = FindServerID U name) ∧
    (SI.IsSID name = false →
      FindServer SI U name = U.serverlist.find name ∧
      (FindServer SI U name = none ↔ ∀ p, (name, p) ∉ U.serverlist) ∧
      ∀ p, FindServer SI U name = some p → (name, p) ∈ U.serverlist) := by
  refine ⟨fun h => ⟨by simp [FindServer, h], fun index => by simp [FindServer, FindServerID, h]⟩,
    fun h => ?_⟩
  have h1 : FindServer SI U name = U.serverlist.find name := by simp [FindServer, h]
  refine ⟨h1, ?_, ?_⟩
  · rw [h1]; exact server_hash.find_eq_none _ _
  · intro p hp
    rw [h1] at hp
    exact server_hash.find_eq_some _ _ _ hp

/-- `FindServer_dispatch` at the short ID `002` and at the name `hub.example`. -/
theorem FindServer_dispatch_witness :
    (FindServer sampleInstance sampleUtils "002" = FindServerID sampleUtils "002" ∧
      ∀ index : server_hash,
        FindServer sampleInstance { sampleUtils with serverlist := index } "002"
          = FindServerID sampleUtils "002") ∧
    (FindServer sampleInstance sampleUtils "hub.example"
        = sampleUtils.serverlist.find "hub.example" ∧
      (FindServer sampleInstance sampleUtils "hub.example" = none ↔
        ∀ p, ("hub.example", p) ∉ sampleUtils.serverlist) ∧
      ∀ p, FindServer sampleInstance sampleUtils "hub.example" = some p →
        ("hub.example", p) ∈ sampleUtils.serverlist) :=
  ⟨(FindServer_dispatch sampleInstance sampleUtils "002").1 (by decide),
   (FindServer_dispatch sampleInstance sampleUtils "hub.example").2 (by decide)⟩

/-- C6: `BestRouteTo` returns null for the local server, asked for by its name or
by its short ID, whatever the indexes and the user table hold. -/
theorem BestRouteTo_local (SI : ServerInstance) (U : SpanningTreeUtilities) :
    BestRouteTo SI U (U.heap U.TreeRoot).ServerName = none ∧
    BestRouteTo SI U SI.ConfigSID = none := by
  constructor <;> simp [BestRouteTo]

/-- C7: a name that has no entry in the by-name index, none in the by-ID index,
and is not the nickname of a connected user has the null route. -/
theorem BestRouteTo_unknown (SI : ServerInstance) (U : SpanningTreeUtilities) (name : String)
    (hname : ∀ p, (name, p) ∉ U.serverlist) (hid : ∀ p, (name, p) ∉ U.sidlist)
    (hnick : SI.FindNick name = none) :
    BestRouteTo SI U name = none := by
  have h1 : U.serverlist.find name = none := (server_hash.find_eq_none _ _).2 hname
  have h2 : U.sidlist.find name = none := (server_hash.find_eq_none _ _).2 hid
  have h3 : FindServer SI U name = none := by
    unfold FindServer FindServerID
    split <;> assumption
  unfold BestRouteTo
  split
  · rfl
  · simp [h3, hnick]

/-- `BestRouteTo_unknown` at the name `nowhere.example`. -/
theorem BestRouteTo_unknown_witness :
    (∀ p, ("nowhere.example", p) ∉ sampleUtils.serverlist) ∧
    (∀ p, ("nowhere.example", p) ∉ sampleUtils.sidlist) ∧
    sampleInstance.FindNick "nowhere.example" = none ∧
    BestRouteTo sampleInstance sampleUtils "nowhere.example" = none :=
  ⟨by simp [sampleUtils], by simp [sampleUtils], by decide,
   BestRouteTo_unknown sampleInstance sampleUtils "nowhere.example"
     (by simp [sampleUtils]) (by simp [sampleUtils]) (by decide)⟩

/-! ## Theorems: admission filter -/

/-- C2: `OnAcceptReady` creates the server socket exactly when the allow-list
holds the remote address itself, the wildcard `*`, or an entry that
`MatchCIDR` matches against the address; it closes the accepted socket exactly
when it creates none, and writes the denial notice exactly then. -/
theorem OnAcceptReady_admits (SI : ServerInstance) (U : SpanningTreeUtilities)
    (incomingip : String) :
    ((OnAcceptReady SI U incomingip).created = true ↔
      incomingip ∈ U.ValidIPs ∨ "*" ∈ U.ValidIPs ∨
        ∃ mask ∈ U.ValidIPs, SI.MatchCIDR incomingip mask = true) ∧
    (OnAcceptReady SI U incomingip).closed = !(OnAcceptReady SI U incomingip).created ∧
    (OnAcceptReady SI U incomingip).snotice =
      (if (OnAcceptReady SI U incomingip).created then none
       else some ("Server connection from " ++ incomingip ++
        " denied (no link blocks with that IP address)")) := by
  have key : (decide (incomingip ∈ U.ValidIPs) = true ∨
      U.ValidIPs.any (fun i => i == "*" || SI.MatchCIDR incomingip i) = true) ↔
      (incomingip ∈ U.ValidIPs ∨ "*" ∈ U.ValidIPs ∨
        ∃ mask ∈ U.ValidIPs, SI.MatchCIDR incomingip mask = true) := by
    rw [List.any_eq_true, decide_eq_true_iff]
    constructor
    · rintro (h | ⟨i, hi, h⟩)
      · exact Or.inl h
      · rcases Bool.or_eq_true _ _ ▸ h with h | h
        · have : i = "*" := by simpa using h
          exact Or.inr (Or.inl (this ▸ hi))
        · exact Or.inr (Or.inr ⟨i, hi, h⟩)
    · rintro (h | h | ⟨i, hi, h⟩)
      · exact Or.inl h
      · exact Or.inr ⟨"*", h, by simp⟩
      · exact Or.inr ⟨i, hi, by simp [h]⟩
  rw [← key]
  unfold OnAcceptReady
  by_cases h1 : incomingip ∈ U.ValidIPs
  · simp [h1]
  · by_cases h2 : U.ValidIPs.any (fun i => i == "*" || SI.MatchCIDR incomingip i) = true
    · simp [h1, h2]
    · simp only [Bool.not_eq_true] at h2
      simp [h1, h2]

/-! ## Theorems: router -/

/-- A child loop whose body appends what `f` selects for the child at index `x`
produces the selected entries of the remaining children, in child order. -/
theorem forLoop_children {α β : Type} (l : List α) (f : α → Option β)
    (body : Nat → List β → List β)
    (hbody : ∀ x out, body x out =
      match l[x]? with
      | some a =>
        match f a with
        | some b => out ++ [b]
        | none => out
      | none => out) :
    ∀ (count x : Nat) (out : List β), x + count = l.length →
      forLoop body count x out = out ++ (l.drop x).filterMap f := by
  intro count
  induction count with
  | zero =>
    intro x out hx
    have : l.length ≤ x := by omega
    simp [forLoop, List.drop_eq_nil_of_le this]
  | succ n ih =>
    intro x out hx
    have hlt : x < l.length := by omega
    rw [forLoop, ih (x + 1) (body x out) (by omega), hbody, List.drop_eq_getElem_cons hlt,
      List.getElem?_eq_getElem hlt, List.filterMap_cons]
    cases hf : f l[x] <;> simp [hf]

/-- C4: `DoOneToMany` returns true and writes the line once for each direct child
of the root that has a socket, in child order, and nothing else: the `WriteLine`
calls are the children's sockets, children without a socket left out. -/
theorem DoOneToMany_writes (U : SpanningTreeUtilities) (pfx command : String)
    (params : List String) :
    (DoOneToMany U pfx command params).1 = true ∧
    (DoOneToMany U pfx command params).2 =
      (U.heap U.TreeRoot).Children.filterMap (fun child =>
        match (U.heap child).Socket with
        | some Sock => some (Sock, FullLine pfx command params)
        | none => none) := by
  refine ⟨rfl, ?_⟩
  have h := forLoop_children (U.heap U.TreeRoot).Children
    (fun child =>
      match (U.heap child).Socket with
      | some Sock => some (Sock, FullLine pfx command params)
      | none => none)
    (toManyBody U (FullLine pfx command params))
    (by
      intro x out
      unfold toManyBody TreeServer.GetChild
      cases (U.heap U.TreeRoot).Children[x]? with
      | none => rfl
      | some child =>
        dsimp only
        cases hs : (U.heap child).Socket <;> rfl)
    (U.heap U.TreeRoot).Children.length 0 [] (by simp)
  simpa [DoOneToMany, TreeServer.ChildCount] using h

/-- C3: `DoOneToAllButSender` returns true and writes the line once for each
direct child of the root that has a socket, whose name is not the omitted name
and which is not `BestRouteTo` of the omitted name, in child order, and nothing
else: a child named like the omitted server, or through which it is reached,
contributes no `WriteLine` call. -/
theorem DoOneToAllButSender_writes (SI : ServerInstance) (U : SpanningTreeUtilities)
    (pfx command : String) (params : List String) (omitName : String) :
    (DoOneToAllButSender SI U pfx command params omitName).1 = true ∧
    (DoOneToAllButSender SI U pfx command params omitName).2 =
      (U.heap U.TreeRoot).Children.filterMap (fun child =>
        match (U.heap child).Socket with
        | some Sock =>
          if (U.heap child).ServerName ≠ omitName ∧ BestRouteTo SI U omitName ≠ some child
          then some (Sock, FullLine pfx command params) else none
        | none => none) := by
  refine ⟨rfl, ?_⟩
  have h := forLoop_children (U.heap U.TreeRoot).Children
    (fun child =>
      match (U.heap child).Socket with
      | some Sock =>
        if (U.heap child).ServerName ≠ omitName ∧ BestRouteTo SI U omitName ≠ some child
        then some (Sock, FullLine pfx command params) else none
      | none => none)
    (butSenderBody U (BestRouteTo SI U omitName) omitName (FullLine pfx command params))
    (by
      intro x out
      unfold butSenderBody TreeServer.GetChild
      cases (U.heap U.TreeRoot).Children[x]? with
      | none => rfl
      | some child =>
        dsimp only
        cases hs : (U.heap child).Socket with
        | none => rfl
        | some Sock =>
          dsimp only
          by_cases hc : (U.heap child).ServerName ≠ omitName ∧
              BestRouteTo SI U omitName ≠ some child
          · rw [if_pos hc, if_pos hc]
          · rw [if_neg hc, if_neg hc])
    (U.heap U.TreeRoot).Children.length 0 [] (by simp)
  simpa [DoOneToAllButSender, TreeServer.ChildCount] using h

/-- C5, as the code has it: `DoOneToOne` returns false exactly when
`BestRouteTo(target)` is null, and then writes nothing; otherwise it returns true
and writes the line once on the socket of the best route when that route has a
socket, nothing when it has none, and never on another link. -/
theorem DoOneToOne_route (SI : ServerInstance) (U : SpanningTreeUtilities)
    (pfx command : String) (params : List String) (target : String) :
    ((DoOneToOne SI U pfx command params target).1 = false ↔
      BestRouteTo SI U target = none) ∧
    (BestRouteTo SI U target = none → (DoOneToOne SI U pfx command params target).2 = []) ∧
    (∀ Route, BestRouteTo SI U target = some Route →
      (DoOneToOne SI U pfx command params target).1 = true ∧
      (DoOneToOne SI U pfx command params target).2 =
        match (U.heap Route).Socket with
        | some Sock => [(Sock, FullLine pfx command params)]
        | none => []) := by
  unfold DoOneToOne
  cases hr : BestRouteTo SI U target with
  | none => simp
  | some Route =>
    dsimp only
    cases hs : (U.heap Route).Socket <;> simp [hs]

/-- `DoOneToOne_route` at an unknown target and at `far.example`, reached through
`hub.example`. -/
theorem DoOneToOne_route_witness :
    (BestRouteTo sampleInstance sampleUtils "nowhere.example" = none ∧
      (DoOneToOne sampleInstance sampleUtils "irc.local" "PING" ["x"] "nowhere.example").2 = []) ∧
    (BestRouteTo sampleInstance sampleUtils "far.example" = some 1 ∧
      (DoOneToOne sampleInstance sampleUtils "irc.local" "PING" ["x"] "far.example").1 = true ∧
      (DoOneToOne sampleInstance sampleUtils "irc.local" "PING" ["x"] "far.example").2 =
        match (sampleUtils.heap 1).Socket with
        | some Sock => [(Sock, FullLine "irc.local" "PING" ["x"])]
        | none => []) :=
  ⟨⟨by decide,
    (DoOneToOne_route sampleInstance sampleUtils "irc.local" "PING" ["x"] "nowhere.example").2.1
      (by decide)⟩,
   ⟨by decide,
    (DoOneToOne_route sampleInstance sampleUtils "irc.local" "PING" ["x"] "far.example").2.2 1
      (by decide)⟩⟩

/-- C5 as stated fails: `leaf.example` has the best route 2, a node without a
socket; `DoOneToOne` returns true and makes no `WriteLine` call at all. -/
theorem DoOneToOne_route_without_socket :
    BestRouteTo sampleInstance sampleUtils "leaf.example" = some 2 ∧
    (sampleUtils.heap 2).Socket = none ∧
    DoOneToOne sampleInstance sampleUtils "irc.local" "PING" ["x"] "leaf.example" = (true, []) := by
  decide

/-! ## Theorems: channel-scoped server list -/

/-- One round of the member loop either leaves the list alone, and then every
route the member selects is already a key, or appends the entry of a selected
route that is not yet a key. -/
theorem channelBody_cases (SI : ServerInstance) (U : SpanningTreeUtilities) (c : Channel)
    (status : Char) (exempt_list : List UserPtr) (list : TreeServerList) (u : UserPtr) :
    (channelBody SI U c status exempt_list list u = list ∧
      ∀ k, memberRoute SI U c status exempt_list u k → k ∈ list.keys) ∨
    (∃ k, memberRoute SI U c status exempt_list u k ∧ k ∉ list.keys ∧
      channelBody SI U c status exempt_list list u = list ++ [(k, k)]) := by
  unfold channelBody memberRoute
  by_cases hl : SI.IS_LOCAL u = true
  · left; simp [hl]
  · by_cases hs : status ≠ Char.ofNat 0 ∧ status ∉ (c.GetAllPrefixChars u).data
    · left
      refine ⟨by simp [hl, hs], ?_⟩
      rintro k ⟨_, h2, _, _⟩
      exact absurd (h2 hs.1) hs.2
    · by_cases he : u ∈ exempt_list
      · left
        refine ⟨by simp [hl, hs, he], ?_⟩
        rintro k ⟨_, _, h3, _⟩
        exact absurd he h3
      · cases hb : BestRouteTo SI U (SI.users u).server with
        | none => left; simp [hl, hs, he]
        | some best =>
          have hs2 : status ≠ Char.ofNat 0 → status ∈ (c.GetAllPrefixChars u).data := by
            intro h0
            by_contra hn
            exact hs ⟨h0, hn⟩
          by_cases hk : best ∈ list.keys
          · left
            refine ⟨by simp [hl, hs, he, AddThisServer, hk], ?_⟩
            rintro k ⟨_, _, _, h4⟩
            cases h4
            exact hk
          · right
            refine ⟨best, ⟨by simpa using hl, hs2, he, rfl⟩, hk, ?_⟩
            simp [hl, hs, he, AddThisServer, hk]

/-- The entries left by the member loop over any member list. -/
theorem GetListOfServers_entries (SI : ServerInstance) (U : SpanningTreeUtilities) (c : Channel)
    (status : Char) (exempt_list : List UserPtr) (members : List UserPtr) :
    ∀ (list : TreeServerList) (e : TreeServerPtr × TreeServerPtr),
      e ∈ members.foldl (channelBody SI U c status exempt_list) list ↔
        e ∈ list ∨ (e.2 = e.1 ∧ e.1 ∉ list.keys ∧
          ∃ u ∈ members, memberRoute SI U c status exempt_list u e.1) := by
  induction members with
  | nil => intro list e; simp
  | cons u rest ih =>
    intro list e
    rw [List.foldl_cons, ih]
    rcases channelBody_cases SI U c status exempt_list list u with ⟨heq, hall⟩ | ⟨k, hk, hnk, heq⟩
    · rw [heq]
      constructor
      · rintro (h | ⟨h1, h2, v, hv, hp⟩)
        · exact Or.inl h
        · exact Or.inr ⟨h1, h2, v, List.mem_cons_of_mem _ hv, hp⟩
      · rintro (h | ⟨h1, h2, v, hv, hp⟩)
        · exact Or.inl h
        · rcases List.mem_cons.1 hv with rfl | hv
          · exact absurd (hall _ hp) h2
          · exact Or.inr ⟨h1, h2, v, hv, hp⟩
    · rw [heq]
      have hkeys : ∀ x, x ∈ TreeServerList.keys (list ++ [(k, k)]) ↔ x ∈ list.keys ∨ x = k := by
        intro x; simp [TreeServerList.keys]
      constructor
      · rintro (h | ⟨h1, h2, v, hv, hp⟩)
        · rcases List.mem_append.1 h with h | h
          · exact Or.inl h
          · have : e = (k, k) := by simpa using h
            subst this
            exact Or.inr ⟨rfl, hnk, u, List.mem_cons_self _ _, hk⟩
        · rw [hkeys] at h2
          exact Or.inr ⟨h1, fun h => h2 (Or.inl h), v, List.mem_cons_of_mem _ hv, hp⟩
      · rintro (h | ⟨h1, h2, v, hv, hp⟩)
        · exact Or.inl (List.mem_append_left _ h)
        · by_cases hek : e.1 = k
          · left
            apply List.mem_append_right
            have : e = (k, k) := Prod.ext hek (h1.trans hek)
            simp [this]
          · rcases List.mem_cons.1 hv with rfl | hv
            · exact absurd (Option.some.inj (hp.2.2.2.symm.trans hk.2.2.2)) hek
            · right
              refine ⟨h1, ?_, v, hv, hp⟩
              rw [hkeys]
              rintro (h | h)
              · exact h2 h
              · exact hek h

/-- The member loop keeps the keys distinct. -/
theorem GetListOfServers_nodup (SI : ServerInstance) (U : SpanningTreeUtilities) (c : Channel)
    (status : Char) (exempt_list : List UserPtr) (members : List UserPtr) :
    ∀ (list : TreeServerList), list.keys.Nodup →
      (TreeServerList.keys (members.foldl (channelBody SI U c status exempt_list) list)).Nodup := by
  induction members with
  | nil => intro list h; simpa using h
  | cons u rest ih =>
    intro list h
    rw [List.foldl_cons]
    apply ih
    rcases channelBody_cases SI U c status exempt_list list u with ⟨heq, _⟩ | ⟨k, _, hnk, heq⟩
    · rw [heq]; exact h
    · rw [heq]
      unfold TreeServerList.keys at *
      rw [List.map_append, List.nodup_append]
      refine ⟨h, by simp, ?_⟩
      intro x hx hx2
      have : x = k := by simpa using hx2
      exact hnk (this ▸ hx)

/-- C9: `GetListOfServersForChannel` leaves in the list exactly the initial
entries plus one entry for each route that is not yet a key and is the non-null
`BestRouteTo` of the home server of a member that is not local, carries the
status character when a non-zero status is given, and is not exempt; the keys
stay distinct, so a route shared by several selected members appears once. -/
theorem GetListOfServersForChannel_entries (SI : ServerInstance) (U : SpanningTreeUtilities)
    (c : Channel) (list : TreeServerList) (status : Char) (exempt_list : List UserPtr)
    (hmap : list.keys.Nodup) :
    (∀ e : TreeServerPtr × TreeServerPtr,
      e ∈ GetListOfServersForChannel SI U c list status exempt_list ↔
        e ∈ list ∨ (e.2 = e.1 ∧ e.1 ∉ list.keys ∧
          ∃ u ∈ c.GetUsers,
            SI.IS_LOCAL u = false ∧
            (status ≠ Char.ofNat 0 → status ∈ (c.GetAllPrefixChars u).data) ∧
            u ∉ exempt_list ∧
            BestRouteTo SI U (SI.users u).server = some e.1)) ∧
    (∀ k : TreeServerPtr,
      k ∈ (GetListOfServersForChannel SI U c list status exempt_list).keys ↔
        k ∈ list.keys ∨
          ∃ u ∈ c.GetUsers,
            SI.IS_LOCAL u = false ∧
            (status ≠ Char.ofNat 0 → status ∈ (c.GetAllPrefixChars u).data) ∧
            u ∉ exempt_list ∧
            BestRouteTo SI U (SI.users u).server = some k) ∧
    (GetListOfServersForChannel SI U c list status exempt_list).keys.Nodup := by
  have hent := GetListOfServers_entries SI U c status exempt_list c.GetUsers list
  refine ⟨hent, ?_, GetListOfServers_nodup SI U c status exempt_list c.GetUsers list hmap⟩
  intro k
  unfold GetListOfServersForChannel
  constructor
  · intro hk
    obtain ⟨e, he, rfl⟩ := List.mem_map.1 hk
    rcases (hent e).1 he with h | ⟨_, _, h⟩
    · exact Or.inl (List.mem_map.2 ⟨e, h, rfl⟩)
    · exact Or.inr h
  · rintro (hk | ⟨u, hu, hp⟩)
    · obtain ⟨e, he, rfl⟩ := List.mem_map.1 hk
      exact List.mem_map.2 ⟨e, (hent e).2 (Or.inl he), rfl⟩
    · by_cases hk : k ∈ list.keys
      · obtain ⟨e, he, rfl⟩ := List.mem_map.1 hk
        exact List.mem_map.2 ⟨e, (hent e).2 (Or.inl he), rfl⟩
      · exact List.mem_map.2 ⟨(k, k), (hent (k, k)).2 (Or.inr ⟨rfl, hk, u, hu, hp⟩), rfl⟩

/-- `GetListOfServersForChannel_entries` on the sample channel: `alice` and
`carol` share the route 1, which is listed once. -/
theorem GetListOfServersForChannel_entries_witness :
    (TreeServerList.keys []).Nodup ∧
    (GetListOfServersForChannel sampleInstance sampleUtils sampleChannel [] '@' []).keys.Nodup ∧
    GetListOfServersForChannel sampleInstance sampleUtils sampleChannel [] '@' [] = [(1, 1)] :=
  ⟨List.nodup_nil,
   (GetListOfServersForChannel_entries sampleInstance sampleUtils sampleChannel [] '@' []
      List.nodup_nil).2.2,
   by decide⟩

/-! ## Theorems: link configuration -/

/-- A name that holds a `.` is not empty. -/
theorem name_ne_empty_of_dot {s : String} (h : '.' ∈ s.data) : s ≠ "" := by
  rintro rfl
  simp at h

/-- What one round of the link loop does to the three lists, and when it
throws. -/
theorem ReadLinkTag_spec (t : LinkTag) (s : ConfState) :
    ((ReadLinkTag t s).1 = none ↔ ¬ t.fatal) ∧
    (ReadLinkTag t s).2.Utils.LinkBlocks =
      s.Utils.LinkBlocks ++ (if t.fatal then [] else [t.stored]) ∧
    (ReadLinkTag t s).2.Utils.ValidIPs = s.Utils.ValidIPs ++ t.pushed ∧
    (ReadLinkTag t s).2.Utils.AutoconnectBlocks = s.Utils.AutoconnectBlocks := by
  unfold ReadLinkTag LinkTag.fatal LinkTag.pushed LinkTag.stored Link.ofTag
  by_cases h1 : '.' ∈ t.name.data
  · have hn := name_ne_empty_of_dot h1
    by_cases h2 : t.name.length > 64
    · simp [h1, h2]
    · by_cases h3 : t.ipaddr = "" <;> by_cases h4 : t.recvpass = "" <;>
        by_cases h5 : t.sendpass = "" <;> by_cases h6 : t.port = 0 <;>
        simp [h1, h2, h3, h4, h5, h6, hn, ConfState.pushValidIP, ConfState.pushLink,
          ConfState.Log]
  · simp [h1]

/-- What the link loop does to the three lists, and when it throws. -/
theorem ReadLinkTags_spec (tags : List LinkTag) :
    ∀ s : ConfState,
      ((ReadLinkTags tags s).1 = none ↔ ∀ t ∈ tags, ¬ t.fatal) ∧
      (ReadLinkTags tags s).2.Utils.LinkBlocks =
        s.Utils.LinkBlocks ++ (tags.takeWhile (fun t => decide (¬ t.fatal))).map LinkTag.stored ∧
      (ReadLinkTags tags s).2.Utils.ValidIPs =
        s.Utils.ValidIPs ++
          (tags.take ((tags.takeWhile (fun t => decide (¬ t.fatal))).length + 1)).flatMap
            LinkTag.pushed ∧
      (ReadLinkTags tags s).2.Utils.AutoconnectBlocks = s.Utils.AutoconnectBlocks := by
  induction tags with
  | nil => intro s; simp [ReadLinkTags]
  | cons t rest ih =>
    intro s
    obtain ⟨h1, h2, h3, h4⟩ := ReadLinkTag_spec t s
    rcases hr : ReadLinkTag t s with ⟨_ | e, s1⟩
    · rw [hr] at h1 h2 h3 h4
      have hok : ¬ t.fatal := h1.1 rfl
      obtain ⟨i1, i2, i3, i4⟩ := ih s1
      simp only [ReadLinkTags, hr]
      refine ⟨?_, ?_, ?_, ?_⟩
      · rw [i1]; simp [hok]
      · rw [i2, h2]; simp [hok]
      · rw [i3, h3]; simp [hok]
      · rw [i4, h4]
    · rw [hr] at h1 h2 h3 h4
      have hbad : t.fatal := by
        by_contra hn
        have := h1.2 hn
        simp at this
      simp only [ReadLinkTags, hr]
      refine ⟨?_, ?_, ?_, ?_⟩
      · simp only [reduceCtorEq, false_iff]
        intro hall
        exact hall t (List.mem_cons_self _ _) hbad
      · rw [h2]; simp [hbad]
      · rw [h3]; simp [hbad]
      · rw [h4]

/-- What one round of the autoconnect loop does to the three lists, and when it
throws. -/
theorem ReadAutoconnectTag_spec (SI : ServerInstance) (t : AutoconnectTag) (s : ConfState) :
    ((ReadAutoconnectTag SI t s).1 = none ↔ ¬ t.fatal) ∧
    (ReadAutoconnectTag SI t s).2.Utils.AutoconnectBlocks =
      s.Utils.AutoconnectBlocks ++ (if t.fatal then [] else [t.stored SI]) ∧
    (ReadAutoconnectTag SI t s).2.Utils.LinkBlocks = s.Utils.LinkBlocks ∧
    (ReadAutoconnectTag SI t s).2.Utils.ValidIPs = s.Utils.ValidIPs := by
  unfold ReadAutoconnectTag AutoconnectTag.fatal AutoconnectTag.stored
  by_cases h1 : t.period ≤ 0
  · simp [h1]
  · by_cases h2 : spacesepstream t.server = []
    · simp [h1, h2]
    · simp [h1, h2, ConfState.pushAutoconnect]

/-- What the autoconnect loop does to the three lists, and when it throws. -/
theorem ReadAutoconnectTags_spec (SI : ServerInstance) (tags : List AutoconnectTag) :
    ∀ s : ConfState,
      ((ReadAutoconnectTags SI tags s).1 = none ↔ ∀ t ∈ tags, ¬ t.fatal) ∧
      (ReadAutoconnectTags SI tags s).2.Utils.AutoconnectBlocks =
        s.Utils.AutoconnectBlocks ++
          (tags.takeWhile (fun t => decide (¬ t.fatal))).map (AutoconnectTag.stored SI) ∧
      (ReadAutoconnectTags SI tags s).2.Utils.LinkBlocks = s.Utils.LinkBlocks ∧
      (ReadAutoconnectTags SI tags s).2.Utils.ValidIPs = s.Utils.ValidIPs := by
  induction tags with
  | nil => intro s; simp [ReadAutoconnectTags]
  | cons t rest ih =>
    intro s
    obtain ⟨h1, h2, h3, h4⟩ := ReadAutoconnectTag_spec SI t s
    rcases hr : ReadAutoconnectTag SI t s with ⟨_ | e, s1⟩
    · rw [hr] at h1 h2 h3 h4
      have hok : ¬ t.fatal := h1.1 rfl
      obtain ⟨i1, i2, i3, i4⟩ := ih s1
      simp only [ReadAutoconnectTags, hr]
      refine ⟨?_, ?_, ?_, ?_⟩
      · rw [i1]; simp [hok]
      · rw [i2, h2]; simp [hok]
      · rw [i3, h3]
      · rw [i4, h4]
    · rw [hr] at h1 h2 h3 h4
      have hbad : t.fatal := by
        by_contra hn
        have := h1.2 hn
        simp at this
      simp only [ReadAutoconnectTags, hr]
      refine ⟨?_, ?_, ?_, ?_⟩
      · simp only [reduceCtorEq, false_iff]
        intro hall
        exact hall t (List.mem_cons_self _ _) hbad
      · rw [h2]; simp [hbad]
      · rw [h3]
      · rw [h4]

/-- `ReadConfiguration` runs the two loops from a state whose three lists are
empty. -/
theorem ReadConfiguration_unfold (SI : ServerInstance) (Conf : ServerConfig) (rebind : Bool)
    (s : ConfState) :
    ∃ s0 : ConfState, s0.Utils.LinkBlocks = [] ∧ s0.Utils.AutoconnectBlocks = [] ∧
      s0.Utils.ValidIPs = [] ∧
      ReadConfiguration SI Conf rebind s =
        match ReadLinkTags Conf.links s0 with
        | (some e, s1) => { thrown := some e, after := s1 }
        | (none, s1) =>
          match ReadAutoconnectTags SI Conf.autoconnects s1 with
          | (some e, s2) => { thrown := some e, after := s2 }
          | (none, s2) => { thrown := none, after := RefreshIPCache SI s2 } :=
  ⟨_, rfl, rfl, rfl, rfl⟩

/-- `ReadConfiguration` throws exactly when a link tag or an autoconnect tag is
invalid. -/
theorem ReadConfiguration_thrown_iff (SI : ServerInstance) (Conf : ServerConfig) (rebind : Bool)
    (s : ConfState) :
    (ReadConfiguration SI Conf rebind s).thrown ≠ none ↔
      (∃ t ∈ Conf.links, t.fatal) ∨ (∃ a ∈ Conf.autoconnects, a.fatal) := by
  obtain ⟨s0, _, _, _, heq⟩ := ReadConfiguration_unfold SI Conf rebind s
  rw [heq]
  have hl := (ReadLinkTags_spec Conf.links s0).1
  rcases hr : ReadLinkTags Conf.links s0 with ⟨_ | e, s1⟩
  · rw [hr] at hl
    have hok : ∀ t ∈ Conf.links, ¬ t.fatal := hl.1 rfl
    have ha := (ReadAutoconnectTags_spec SI Conf.autoconnects s1).1
    dsimp only
    rcases hr2 : ReadAutoconnectTags SI Conf.autoconnects s1 with ⟨_ | e2, s2⟩
    · rw [hr2] at ha
      have hok2 : ∀ t ∈ Conf.autoconnects, ¬ t.fatal := ha.1 rfl
      simp only [ne_eq, not_true_eq_false, false_iff, not_or, not_exists, not_and]
      exact ⟨hok, hok2⟩
    · rw [hr2] at ha
      simp only [ne_eq, reduceCtorEq, not_false_eq_true, true_iff]
      right
      by_contra hn
      have : (some e2 : Option String) = none := ha.2 (by
        intro t ht hf
        exact hn ⟨t, ht, hf⟩)
      simp at this
  · rw [hr] at hl
    simp only [ne_eq, reduceCtorEq, not_false_eq_true, true_iff]
    left
    by_contra hn
    have : (some e : Option String) = none := hl.2 (by
      intro t ht hf
      exact hn ⟨t, ht, hf⟩)
    simp at this

/-- C1, as the code has it: a failed `ReadConfiguration` does not keep the prior
lists.  They are cleared before the tags are read, so after the failed call the
link-block list holds the blocks of the link tags before the first invalid one,
the autoconnect list the records of the autoconnect tags before the first invalid
one (none when a link tag failed), and the allow-list the entries pushed while
reading the link tags up to and including the failing one, whatever the prior
state held. -/
theorem ReadConfiguration_failure_lists (SI : ServerInstance) (Conf : ServerConfig)
    (rebind : Bool) (s : ConfState)
    (h : (ReadConfiguration SI Conf rebind s).thrown ≠ none) :
    (ReadConfiguration SI Conf rebind s).after.Utils.LinkBlocks =
      (Conf.links.takeWhile (fun t => decide (¬ t.fatal))).map LinkTag.stored ∧
    (ReadConfiguration SI Conf rebind s).after.Utils.AutoconnectBlocks =
      (if ∃ t ∈ Conf.links, t.fatal then []
       else (Conf.autoconnects.takeWhile (fun a => decide (¬ a.fatal))).map
        (AutoconnectTag.stored SI)) ∧
    (ReadConfiguration SI Conf rebind s).after.Utils.ValidIPs =
      (Conf.links.take
        ((Conf.links.takeWhile (fun t => decide (¬ t.fatal))).length + 1)).flatMap
        LinkTag.pushed := by
  obtain ⟨s0, z1, z2, z3, heq⟩ := ReadConfiguration_unfold SI Conf rebind s
  rw [heq] at h ⊢
  obtain ⟨hl, l1, l2, l3⟩ := ReadLinkTags_spec Conf.links s0
  rcases hr : ReadLinkTags Conf.links s0 with ⟨_ | e, s1⟩
  · rw [hr] at hl l1 l2 l3 h
    have hok : ¬ ∃ t ∈ Conf.links, t.fatal := by
      rintro ⟨t, ht, hf⟩
      exact hl.1 rfl t ht hf
    obtain ⟨ha, a1, a2, a3⟩ := ReadAutoconnectTags_spec SI Conf.autoconnects s1
    dsimp only at h ⊢
    rcases hr2 : ReadAutoconnectTags SI Conf.autoconnects s1 with ⟨_ | e2, s2⟩
    · rw [hr2] at h
      exact absurd rfl h
    · rw [hr2] at ha a1 a2 a3
      dsimp only at a1 a2 a3 l1 l2 l3 ⊢
      rw [if_neg hok, a1, a2, a3, l1, l2, l3, z1, z2, z3]
      simp
  · rw [hr] at hl l1 l2 l3
    have hbad : ∃ t ∈ Conf.links, t.fatal := by
      by_contra hn
      have : (some e : Option String) = none := hl.2 (by
        intro t ht hf
        exact hn ⟨t, ht, hf⟩)
      simp at this
    dsimp only at l1 l2 l3 ⊢
    rw [if_pos hbad, l1, l2, l3, z1, z2, z3]
    simp

/-- `ReadConfiguration_failure_lists` on a configuration whose second link block
is named `irc`. -/
theorem ReadConfiguration_failure_lists_witness :
    (ReadConfiguration sampleInstance
        (sampleConf [sampleLinkTag "hub.example", sampleLinkTag "irc"]) true
        sampleState).thrown ≠ none ∧
    (ReadConfiguration sampleInstance
        (sampleConf [sampleLinkTag "hub.example", sampleLinkTag "irc"]) true
        sampleState).after.Utils.LinkBlocks =
      (List.takeWhile (fun t => decide (¬ t.fatal))
        [sampleLinkTag "hub.example", sampleLinkTag "irc"]).map LinkTag.stored :=
  ⟨by decide,
   (ReadConfiguration_failure_lists sampleInstance
      (sampleConf [sampleLinkTag "hub.example", sampleLinkTag "irc"]) true sampleState
      (by decide)).1⟩

/-- C1 as stated fails: loading a configuration whose only link block is named
`irc` throws, and the link-block list, the autoconnect list and the allow-list,
all non-empty before the call, are empty after it. -/
theorem ReadConfiguration_failure_clears :
    (ReadConfiguration sampleInstance (sampleConf [sampleLinkTag "irc"]) false
        sampleState).thrown ≠ none ∧
    sampleState.Utils.LinkBlocks ≠ [] ∧
    sampleState.Utils.AutoconnectBlocks ≠ [] ∧
    sampleState.Utils.ValidIPs ≠ [] ∧
    (ReadConfiguration sampleInstance (sampleConf [sampleLinkTag "irc"]) false
        sampleState).after.Utils.LinkBlocks = [] ∧
    (ReadConfiguration sampleInstance (sampleConf [sampleLinkTag "irc"]) false
        sampleState).after.Utils.AutoconnectBlocks = [] ∧
    (ReadConfiguration sampleInstance (sampleConf [sampleLinkTag "irc"]) false
        sampleState).after.Utils.ValidIPs = [] := by
  decide

/-- C10: when every autoconnect block is valid (positive period, at least one
server name), `ReadConfiguration` throws exactly when some link block has a name
without a `.` (the empty name included), a name longer than 64 characters, an
empty recvpass or an empty sendpass. -/
theorem ReadConfiguration_link_validation (SI : ServerInstance) (Conf : ServerConfig)
    (rebind : Bool) (s : ConfState)
    (hauto : ∀ a ∈ Conf.autoconnects, 0 < a.period ∧ spacesepstream a.server ≠ []) :
    (ReadConfiguration SI Conf rebind s).thrown ≠ none ↔
      ∃ t ∈ Conf.links,
        '.' ∉ t.name.data ∨ t.name.length > 64 ∨ t.recvpass = "" ∨ t.sendpass = "" := by
  rw [ReadConfiguration_thrown_iff]
  constructor
  · rintro (h | ⟨a, ha, hf⟩)
    · exact h
    · rcases hf with hf | hf
      · exact absurd (hauto a ha).1 (by omega)
      · exact absurd hf (hauto a ha).2
  · intro h
    exact Or.inl h

/-- `ReadConfiguration_link_validation` on three configurations: a block named
`irc` and a block with a 65-character name fail the load, a block with a dotted
name of 64 characters and both secrets set is accepted. -/
theorem ReadConfiguration_link_validation_witness :
    (∀ a ∈ (sampleConf [sampleLinkTag "irc"]).autoconnects,
      0 < a.period ∧ spacesepstream a.server ≠ []) ∧
    (ReadConfiguration sampleInstance (sampleConf [sampleLinkTag "irc"]) true
      sampleState).thrown ≠ none ∧
    (ReadConfiguration sampleInstance (sampleConf [sampleLinkTag name65]) true
      sampleState).thrown ≠ none ∧
    ¬ (ReadConfiguration sampleInstance (sampleConf [sampleLinkTag name64]) true
      sampleState).thrown ≠ none :=
  ⟨by decide,
   (ReadConfiguration_link_validation sampleInstance (sampleConf [sampleLinkTag "irc"]) true
      sampleState (by decide)).2 (by decide),
   (ReadConfiguration_link_validation sampleInstance (sampleConf [sampleLinkTag name65]) true
      sampleState (by decide)).2 (by decide),
   (not_congr (ReadConfiguration_link_validation sampleInstance
      (sampleConf [sampleLinkTag name64]) true sampleState (by decide))).2 (by decide)⟩

/-! ## Theorems: router, line format and raw variant -/

/-- A loop keeps every property of its state that each round keeps. -/
theorem forLoop_invariant {σ : Type} (P : σ → Prop) (body : Nat → σ → σ)
    (hbody : ∀ x s, P s → P (body x s)) :
    ∀ (count x : Nat) (s : σ), P s → P (forLoop body count x s) := by
  intro count
  induction count with
  | zero => intro x s hs; simpa [forLoop] using hs
  | succ n ih => intro x s hs; rw [forLoop]; exact ih (x + 1) (body x s) (hbody x s hs)

/-- Concatenating a list of strings that starts with `a`. -/
theorem join_cons (a : String) (l : List String) : String.join (a :: l) = a ++ String.join l := by
  have h : ∀ (l : List String) (acc : String),
      l.foldl (fun r s => r ++ s) acc = acc ++ l.foldl (fun r s => r ++ s) "" := by
    intro l
    induction l with
    | nil => intro acc; simp
    | cons b t ih =>
      intro acc
      rw [List.foldl_cons, List.foldl_cons, ih (acc ++ b), ih ("" ++ b)]
      simp [String.append_assoc]
  unfold String.join
  rw [List.foldl_cons, h l ("" ++ a)]
  simp

/-- The parameter loop appends each parameter, preceded by one space, to the
line built so far. -/
theorem foldl_params (params : List String) :
    ∀ init : String,
      params.foldl (fun line p => line ++ " " ++ p) init =
        init ++ String.join (params.map (fun p => " " ++ p)) := by
  induction params with
  | nil => intro init; simp [String.join]
  | cons p rest ih =>
    intro init
    rw [List.foldl_cons, ih, List.map_cons, join_cons]
    simp [String.append_assoc]

/-- C14, as the code has it: the string that `DoOneToOne`, `DoOneToMany` and
`DoOneToAllButSender` pass to `WriteLine` is, for every destination of the call,
the one string `":" + pfx + " " + command` followed by each parameter in order
preceded by a single space, the parameters unmodified; these functions append no
line terminator to it. -/
theorem routed_line (SI : ServerInstance) (U : SpanningTreeUtilities) (pfx command : String)
    (params : List String) (target omitName : String) :
    (∀ w ∈ (DoOneToOne SI U pfx command params target).2,
      w.2 = ":" ++ pfx ++ " " ++ command ++ String.join (params.map (fun p => " " ++ p))) ∧
    (∀ w ∈ (DoOneToMany U pfx command params).2,
      w.2 = ":" ++ pfx ++ " " ++ command ++ String.join (params.map (fun p => " " ++ p))) ∧
    (∀ w ∈ (DoOneToAllButSender SI U pfx command params omitName).2,
      w.2 = ":" ++ pfx ++ " " ++ command ++ String.join (params.map (fun p => " " ++ p))) := by
  have hline : FullLine pfx command params =
      ":" ++ pfx ++ " " ++ command ++ String.join (params.map (fun p => " " ++ p)) := by
    unfold FullLine
    exact foldl_params params _
  rw [← hline]
  refine ⟨?_, ?_, ?_⟩
  · unfold DoOneToOne
    cases BestRouteTo SI U target with
    | none => simp
    | some Route =>
      dsimp only
      cases (U.heap Route).Socket <;> simp
  · unfold DoOneToMany
    apply forLoop_invariant (fun out : List WriteCall =>
      ∀ w ∈ out, w.2 = FullLine pfx command params)
    · intro x out hout
      unfold toManyBody
      split
      · split
        · intro w hw
          rcases List.mem_append.1 hw with h | h
          · exact hout w h
          · rw [List.mem_singleton.1 h]
        · exact hout
      · exact hout
    · simp
  · unfold DoOneToAllButSender
    apply forLoop_invariant (fun out : List WriteCall =>
      ∀ w ∈ out, w.2 = FullLine pfx command params)
    · intro x out hout
      unfold butSenderBody
      split
      · split
        · split
          · intro w hw
            rcases List.mem_append.1 hw with h | h
            · exact hout w h
            · rw [List.mem_singleton.1 h]
          · exact hout
        · exact hout
      · exact hout
    · simp

/-- `routed_line` at the write that `DoOneToMany` makes on the sample tree. -/
theorem routed_line_witness :
    (71, ":irc.local PING x") ∈ (DoOneToMany sampleUtils "irc.local" "PING" ["x"]).2 ∧
    ((71, ":irc.local PING x") : WriteCall).2 =
      ":" ++ "irc.local" ++ " " ++ "PING" ++ String.join (["x"].map (fun p => " " ++ p)) :=
  ⟨by decide,
   (routed_line sampleInstance sampleUtils "irc.local" "PING" ["x"] "far.example"
      "leaf.example").2.1 (71, ":irc.local PING x") (by decide)⟩

/-- C14 as stated fails: on the sample tree each of the three functions passes
`:irc.local PING x` to `WriteLine`, a string that does not end in `\r\n`. -/
theorem routed_line_no_terminator :
    DoOneToOne sampleInstance sampleUtils "irc.local" "PING" ["x"] "far.example"
      = (true, [(71, ":irc.local PING x")]) ∧
    DoOneToMany sampleUtils "irc.local" "PING" ["x"] = (true, [(71, ":irc.local PING x")]) ∧
    DoOneToAllButSender sampleInstance sampleUtils "irc.local" "PING" ["x"] "leaf.example"
      = (true, [(71, ":irc.local PING x")]) ∧
    ¬ ("\r\n".data <:+ ":irc.local PING x".data) := by
  decide

/-- C16: `DoOneToAllButSenderRaw`, given as data the line `DoOneToAllButSender`
builds, returns the same value and makes the same `WriteLine` calls in the same
order; whatever it is given as prefix, command and parameters, these arguments
change nothing. -/
theorem DoOneToAllButSenderRaw_same (SI : ServerInstance) (U : SpanningTreeUtilities)
    (pfx command : String) (params : List String) (omitName : String)
    (pfx2 command2 : String) (params2 : List String) :
    DoOneToAllButSenderRaw SI U (FullLine pfx command params) omitName pfx2 command2 params2 =
      DoOneToAllButSender SI U pfx command params omitName ∧
    ∀ data : String,
      DoOneToAllButSenderRaw SI U data omitName pfx2 command2 params2 =
        DoOneToAllButSenderRaw SI U data omitName pfx command params := by
  have hbody : ∀ data : String,
      rawBody U (BestRouteTo SI U omitName) omitName data =
        butSenderBody U (BestRouteTo SI U omitName) omitName data := by
    intro data
    funext x out
    unfold rawBody butSenderBody
    cases (U.heap U.TreeRoot).GetChild x with
    | none => rfl
    | some Route =>
      dsimp only
      cases (U.heap Route).Socket <;> rfl
  refine ⟨?_, fun data => rfl⟩
  unfold DoOneToAllButSenderRaw DoOneToAllButSender
  dsimp only
  rw [hbody]

/-! ## Theorems: nickname fallback of `BestRouteTo` -/

/-- C15: for a name that is not the local server (neither its name nor its
short ID), has no entry in either server index and is the nickname of the
connected user `u`, `BestRouteTo` returns the cached route of the home server of
`u` when `FindServer` finds that server, and null when it does not.  For a name
other than the local server that `FindServer` finds in the index its format
selects, it returns the cached route of the node found, whatever `FindNick` and
the user table hold. -/
theorem BestRouteTo_nick_fallback (SI : ServerInstance) (U : SpanningTreeUtilities)
    (name : String) (hlocal : name ≠ (U.heap U.TreeRoot).ServerName)
    (hsid : name ≠ SI.ConfigSID) :
    (∀ u : UserPtr, (∀ p, (name, p) ∉ U.serverlist) → (∀ p, (name, p) ∉ U.sidlist) →
      SI.FindNick name = some u →
      BestRouteTo SI U name =
        match FindServer SI U (SI.users u).server with
        | some Found => (U.heap Found).Route
        | none => none) ∧
    (∀ Found : TreeServerPtr, FindServer SI U name = some Found →
      BestRouteTo SI U name = (U.heap Found).Route ∧
      ∀ (nicks : String → Option UserPtr) (users : UserPtr → User),
        BestRouteTo { SI with FindNick := nicks, users := users } U name
          = (U.heap Found).Route) := by
  have hne : ¬ (name = (U.heap U.TreeRoot).ServerName ∨ name = SI.ConfigSID) := by
    rintro (h | h)
    · exact hlocal h
    · exact hsid h
  constructor
  · intro u hname hid hnick
    have h1 : U.serverlist.find name = none := (server_hash.find_eq_none _ _).2 hname
    have h2 : U.sidlist.find name = none := (server_hash.find_eq_none _ _).2 hid
    have h3 : FindServer SI U name = none := by
      unfold FindServer FindServerID
      split <;> assumption
    unfold BestRouteTo
    rw [if_neg hne]
    simp only [h3, hnick]
  · intro Found hfound
    constructor
    · unfold BestRouteTo
      rw [if_neg hne]
      simp only [hfound]
    · intro nicks users
      have hfound2 : FindServer { SI with FindNick := nicks, users := users } U name
          = some Found := hfound
      unfold BestRouteTo
      rw [if_neg hne]
      simp only [hfound2]

/-- `BestRouteTo_nick_fallback` at the nickname `alice`, whose home server
`far.example` is reached through node 1, and at the server name `far.example`. -/
theorem BestRouteTo_nick_fallback_witness :
    ("alice" ≠ (sampleUtils.heap sampleUtils.TreeRoot).ServerName ∧
      "alice" ≠ sampleInstance.ConfigSID ∧
      (∀ p, ("alice", p) ∉ sampleUtils.serverlist) ∧
      (∀ p, ("alice", p) ∉ sampleUtils.sidlist) ∧
      sampleInstance.FindNick "alice" = some 10 ∧
      BestRouteTo sampleInstance sampleUtils "alice" =
        match FindServer sampleInstance sampleUtils (sampleInstance.users 10).server with
        | some Found => (sampleUtils.heap Found).Route
        | none => none) ∧
    ("far.example" ≠ (sampleUtils.heap sampleUtils.TreeRoot).ServerName ∧
      "far.example" ≠ sampleInstance.ConfigSID ∧
      FindServer sampleInstance sampleUtils "far.example" = some 3 ∧
      BestRouteTo sampleInstance sampleUtils "far.example" = (sampleUtils.heap 3).Route) :=
  ⟨⟨by decide, by decide, by simp [sampleUtils], by simp [sampleUtils], by decide,
    (BestRouteTo_nick_fallback sampleInstance sampleUtils "alice" (by decide) (by decide)).1 10
      (by simp [sampleUtils]) (by simp [sampleUtils]) (by decide)⟩,
   ⟨by decide, by decide, by decide,
    ((BestRouteTo_nick_fallback sampleInstance sampleUtils "far.example" (by decide)
      (by decide)).2 3 (by decide)).1⟩⟩

/-! ## Theorems: the allow-list left by a successful load -/

/-- What one round of `RefreshIPCache` does to the three lists. -/
theorem RefreshLink_spec (SI : ServerInstance) (s : ConfState) (L : Link) :
    (RefreshLink SI s L).Utils.ValidIPs = s.Utils.ValidIPs ++ L.allowEntries SI ∧
    (RefreshLink SI s L).Utils.LinkBlocks = s.Utils.LinkBlocks ∧
    (RefreshLink SI s L).Utils.AutoconnectBlocks = s.Utils.AutoconnectBlocks := by
  unfold RefreshLink Link.allowEntries
  by_cases hg : L.IPAddr = "" ∨ L.RecvPass = "" ∨ L.SendPass = "" ∨ L.Name = "" ∨ L.Port = 0
  · rw [if_pos hg, if_pos hg]
    by_cases hn : L.Name = "" <;> simp [hn, ConfState.Log]
  · rw [if_neg hg, if_neg hg]
    by_cases hm : L.AllowMask.length ≠ 0 <;> by_cases ha : SI.aptosa L.IPAddr L.Port = true <;>
      simp [hm, ha, ConfState.pushValidIP]

/-- What the loop of `RefreshIPCache` does to the three lists. -/
theorem RefreshLinks_spec (SI : ServerInstance) (blocks : List Link) :
    ∀ s : ConfState,
      (blocks.foldl (RefreshLink SI) s).Utils.ValidIPs =
        s.Utils.ValidIPs ++ blocks.flatMap (Link.allowEntries SI) ∧
      (blocks.foldl (RefreshLink SI) s).Utils.LinkBlocks = s.Utils.LinkBlocks ∧
      (blocks.foldl (RefreshLink SI) s).Utils.AutoconnectBlocks = s.Utils.AutoconnectBlocks := by
  induction blocks with
  | nil => intro s; simp
  | cons L rest ih =>
    intro s
    obtain ⟨h1, h2, h3⟩ := RefreshLink_spec SI s L
    obtain ⟨i1, i2, i3⟩ := ih (RefreshLink SI s L)
    rw [List.foldl_cons]
    refine ⟨?_, ?_, ?_⟩
    · rw [i1, h1]; simp
    · rw [i2, h2]
    · rw [i3, h3]

/-- `RefreshIPCache` rebuilds the allow-list from the link blocks alone and
leaves the other two lists as they are. -/
theorem RefreshIPCache_spec (SI : ServerInstance) (s : ConfState) :
    (RefreshIPCache SI s).Utils.ValidIPs = s.Utils.LinkBlocks.flatMap (Link.allowEntries SI) ∧
    (RefreshIPCache SI s).Utils.LinkBlocks = s.Utils.LinkBlocks ∧
    (RefreshIPCache SI s).Utils.AutoconnectBlocks = s.Utils.AutoconnectBlocks := by
  unfold RefreshIPCache
  obtain ⟨h1, h2, h3⟩ := RefreshLinks_spec SI s.Utils.LinkBlocks
    { s with Utils := { s.Utils with ValidIPs := [] } }
  exact ⟨by rw [h1]; simp, h2, h3⟩

/-- A load that returns normally ran both loops to their end and then
`RefreshIPCache`. -/
theorem ReadConfiguration_success_form (SI : ServerInstance) (Conf : ServerConfig)
    (rebind : Bool) (s : ConfState)
    (h : (ReadConfiguration SI Conf rebind s).thrown = none) :
    ∃ s0 s1 s2 : ConfState,
      s0.Utils.LinkBlocks = [] ∧ s0.Utils.AutoconnectBlocks = [] ∧
      ReadLinkTags Conf.links s0 = (none, s1) ∧
      ReadAutoconnectTags SI Conf.autoconnects s1 = (none, s2) ∧
      (ReadConfiguration SI Conf rebind s).after = RefreshIPCache SI s2 := by
  obtain ⟨s0, z1, z2, _, heq⟩ := ReadConfiguration_unfold SI Conf rebind s
  rw [heq] at h ⊢
  rcases hr : ReadLinkTags Conf.links s0 with ⟨_ | e, s1⟩
  · rw [hr] at h
    dsimp only at h ⊢
    rcases hr2 : ReadAutoconnectTags SI Conf.autoconnects s1 with ⟨_ | e2, s2⟩
    · exact ⟨s0, s1, s2, z1, z2, hr, hr2, rfl⟩
    · rw [hr2] at h
      simp at h
  · rw [hr] at h
    simp at h

/-- A loop that meets no invalid tag keeps every tag. -/
theorem takeWhile_all {α : Type} (p : α → Bool) (l : List α) (h : ∀ x ∈ l, p x = true) :
    l.takeWhile p = l := by
  induction l with
  | nil => rfl
  | cons a t ih =>
    rw [List.takeWhile_cons, h a (List.mem_cons_self _ _),
      ih (fun x hx => h x (List.mem_cons_of_mem _ hx))]
    rfl

/-- The three lists a load that returns normally leaves: one block per link tag,
one record per autoconnect tag, and the allow-list `RefreshIPCache` builds from
the blocks. -/
theorem ReadConfiguration_success_lists (SI : ServerInstance) (Conf : ServerConfig)
    (rebind : Bool) (s : ConfState)
    (h : (ReadConfiguration SI Conf rebind s).thrown = none) :
    (ReadConfiguration SI Conf rebind s).after.Utils.LinkBlocks =
      Conf.links.map LinkTag.stored ∧
    (ReadConfiguration SI Conf rebind s).after.Utils.AutoconnectBlocks =
      Conf.autoconnects.map (AutoconnectTag.stored SI) ∧
    (ReadConfiguration SI Conf rebind s).after.Utils.ValidIPs =
      (Conf.links.map LinkTag.stored).flatMap (Link.allowEntries SI) := by
  obtain ⟨s0, s1, s2, z1, z2, hl, ha, heq⟩ := ReadConfiguration_success_form SI Conf rebind s h
  obtain ⟨l0, l1, _, l3⟩ := ReadLinkTags_spec Conf.links s0
  obtain ⟨a0, a1, a2, _⟩ := ReadAutoconnectTags_spec SI Conf.autoconnects s1
  rw [hl] at l0 l1 l3
  rw [ha] at a0 a1 a2
  dsimp only at l0 l1 l3 a0 a1 a2
  have hokl : Conf.links.takeWhile (fun t => decide (¬ t.fatal)) = Conf.links :=
    takeWhile_all _ _ (fun t ht => decide_eq_true (l0.1 rfl t ht))
  have hoka : Conf.autoconnects.takeWhile (fun t => decide (¬ t.fatal)) = Conf.autoconnects :=
    takeWhile_all _ _ (fun t ht => decide_eq_true (a0.1 rfl t ht))
  obtain ⟨r1, r2, r3⟩ := RefreshIPCache_spec SI s2
  have hlb : s2.Utils.LinkBlocks = Conf.links.map LinkTag.stored := by
    rw [a2, l1, z1, hokl]; simp
  rw [heq, r1, r2, r3, hlb, a1, l3, z2, hoka]
  simp

/-- Link tags with a dotted name of at most 64 characters and both secrets
set, and autoconnect tags with a positive period and a server name, load without
an exception. -/
theorem ReadConfiguration_succeeds (SI : ServerInstance) (Conf : ServerConfig) (rebind : Bool)
    (s : ConfState)
    (hvalid : ∀ x ∈ Conf.links,
      '.' ∈ x.name.data ∧ x.name.length ≤ 64 ∧ x.recvpass ≠ "" ∧ x.sendpass ≠ "")
    (hauto : ∀ a ∈ Conf.autoconnects, 0 < a.period ∧ spacesepstream a.server ≠ []) :
    (ReadConfiguration SI Conf rebind s).thrown = none := by
  by_contra hne
  rcases (ReadConfiguration_thrown_iff SI Conf rebind s).1 hne with ⟨t, ht, hf⟩ | ⟨a, ha, hf⟩
  · obtain ⟨h1, h2, h3, h4⟩ := hvalid t ht
    rcases hf with hf | hf | hf | hf
    · exact hf h1
    · exact absurd hf (by omega)
    · exact h3 hf
    · exact h4 hf
  · rcases hf with hf | hf
    · exact absurd (hauto a ha).1 (by omega)
    · exact (hauto a ha).2 hf

/-- A block without a port adds nothing to the allow-list. -/
theorem allowEntries_port_zero (SI : ServerInstance) (t : LinkTag) (hport : t.port = 0) :
    (LinkTag.stored t).allowEntries SI = [] := by
  unfold Link.allowEntries LinkTag.stored Link.ofTag
  simp [hport]

/-- Taking a link tag whose block adds nothing to the allow-list out of a valid
configuration leaves the allow-list of the load as it is. -/
theorem ReadConfiguration_without_tag (SI : ServerInstance) (Conf : ServerConfig)
    (rebind : Bool) (s : ConfState) (pre post : List LinkTag) (t : LinkTag)
    (hlinks : Conf.links = pre ++ t :: post)
    (hvalid : ∀ x ∈ Conf.links,
      '.' ∈ x.name.data ∧ x.name.length ≤ 64 ∧ x.recvpass ≠ "" ∧ x.sendpass ≠ "")
    (hauto : ∀ a ∈ Conf.autoconnects, 0 < a.period ∧ spacesepstream a.server ≠ [])
    (hnone : (LinkTag.stored t).allowEntries SI = []) :
    (ReadConfiguration SI Conf rebind s).after.Utils.ValidIPs =
      (ReadConfiguration SI { Conf with links := pre ++ post } rebind s).after.Utils.ValidIPs := by
  have h1 := ReadConfiguration_succeeds SI Conf rebind s hvalid hauto
  have h2 := ReadConfiguration_succeeds SI { Conf with links := pre ++ post } rebind s
    (by
      intro x hx
      apply hvalid x
      rw [hlinks]
      rcases List.mem_append.1 hx with h | h
      · exact List.mem_append_left _ h
      · exact List.mem_append_right _ (List.mem_cons_of_mem _ h))
    hauto
  rw [(ReadConfiguration_success_lists SI Conf rebind s h1).2.2,
    (ReadConfiguration_success_lists SI _ rebind s h2).2.2, hlinks]
  simp [hnone]

/-- `OnAcceptReady` reads nothing of the utilities object but the allow-list. -/
theorem OnAcceptReady_congr (SI : ServerInstance) (U V : SpanningTreeUtilities)
    (incomingip : String) (h : U.ValidIPs = V.ValidIPs) :
    OnAcceptReady SI U incomingip = OnAcceptReady SI V incomingip := by
  unfold OnAcceptReady
  rw [h]

/-! ## Theorems: what a load writes to the log -/

/-- One round of the link loop keeps the log lines written so far. -/
theorem ReadLinkTag_logs (t : LinkTag) (s : ConfState) (m : String) (hm : m ∈ s.Logs) :
    m ∈ (ReadLinkTag t s).2.Logs := by
  unfold ReadLinkTag Link.ofTag
  by_cases h1 : '.' ∈ t.name.data
  · have hn := name_ne_empty_of_dot h1
    by_cases h2 : t.name.length > 64
    · simp [h1, h2, hm]
    · by_cases h3 : t.ipaddr = "" <;> by_cases h4 : t.recvpass = "" <;>
        by_cases h5 : t.sendpass = "" <;> by_cases h6 : t.port = 0 <;>
        simp [h1, h2, h3, h4, h5, h6, hn, hm, ConfState.pushValidIP, ConfState.pushLink,
          ConfState.Log]
  · simp [h1, hm]

/-- Reading an accepted link tag without a port logs the port warning. -/
theorem ReadLinkTag_port_warning (t : LinkTag) (s : ConfState) (hok : ¬ t.fatal)
    (hport : t.port = 0) :
    ("Configuration warning: Link block " ++ t.name ++
      " has no port defined, you will not be able to /connect it.") ∈
      (ReadLinkTag t s).2.Logs := by
  unfold LinkTag.fatal at hok
  have h1 : '.' ∈ t.name.data := by
    by_contra h; exact hok (Or.inl h)
  have h2 : ¬ t.name.length > 64 := fun h => hok (Or.inr (Or.inl h))
  have h4 : ¬ t.recvpass = "" := fun h => hok (Or.inr (Or.inr (Or.inl h)))
  have h5 : ¬ t.sendpass = "" := fun h => hok (Or.inr (Or.inr (Or.inr h)))
  have hn := name_ne_empty_of_dot h1
  unfold ReadLinkTag Link.ofTag
  by_cases h3 : t.ipaddr = "" <;>
    simp [h1, h2, h3, h4, h5, hport, hn, ConfState.pushValidIP, ConfState.pushLink,
      ConfState.Log]

/-- The link loop keeps the log lines written so far. -/
theorem ReadLinkTags_logs (tags : List LinkTag) (m : String) :
    ∀ s : ConfState, m ∈ s.Logs → m ∈ (ReadLinkTags tags s).2.Logs := by
  induction tags with
  | nil => intro s hm; simpa [ReadLinkTags] using hm
  | cons t rest ih =>
    intro s hm
    have h1 := ReadLinkTag_logs t s m hm
    rcases hr : ReadLinkTag t s with ⟨_ | e, s1⟩
    · rw [hr] at h1
      simp only [ReadLinkTags, hr]
      exact ih s1 h1
    · rw [hr] at h1
      simp only [ReadLinkTags, hr]
      exact h1

/-- A link loop that runs to its end logs the port warning of each tag without
a port. -/
theorem ReadLinkTags_port_warning (pre post : List LinkTag) (t : LinkTag) (hport : t.port = 0) :
    ∀ s : ConfState, (ReadLinkTags (pre ++ t :: post) s).1 = none →
      ("Configuration warning: Link block " ++ t.name ++
        " has no port defined, you will not be able to /connect it.") ∈
        (ReadLinkTags (pre ++ t :: post) s).2.Logs := by
  induction pre with
  | nil =>
    intro s hnone
    have hok : ¬ t.fatal :=
      ((ReadLinkTags_spec (t :: post) s).1.1 hnone) t (List.mem_cons_self _ _)
    have hw := ReadLinkTag_port_warning t s hok hport
    have hstep := (ReadLinkTag_spec t s).1.2 hok
    rcases hr : ReadLinkTag t s with ⟨_ | e, s1⟩
    · rw [hr] at hw
      simp only [List.nil_append, ReadLinkTags, hr]
      exact ReadLinkTags_logs post _ s1 hw
    · rw [hr] at hstep
      simp at hstep
  | cons p rest ih =>
    intro s hnone
    have hok : ¬ p.fatal :=
      ((ReadLinkTags_spec (p :: rest ++ t :: post) s).1.1 hnone) p (List.mem_cons_self _ _)
    have hstep := (ReadLinkTag_spec p s).1.2 hok
    rcases hr : ReadLinkTag p s with ⟨_ | e, s1⟩
    · simp only [List.cons_append, ReadLinkTags, hr] at hnone ⊢
      exact ih s1 hnone
    · rw [hr] at hstep
      simp at hstep

/-- The autoconnect loop writes nothing to the log. -/
theorem ReadAutoconnectTags_logs (SI : ServerInstance) (tags : List AutoconnectTag) :
    ∀ s : ConfState, (ReadAutoconnectTags SI tags s).2.Logs = s.Logs := by
  induction tags with
  | nil => intro s; simp [ReadAutoconnectTags]
  | cons t rest ih =>
    intro s
    have h1 : (ReadAutoconnectTag SI t s).2.Logs = s.Logs := by
      unfold ReadAutoconnectTag
      by_cases h1 : t.period ≤ 0
      · simp [h1]
      · by_cases h2 : spacesepstream t.server = [] <;> simp [h1, h2, ConfState.pushAutoconnect]
    rcases hr : ReadAutoconnectTag SI t s with ⟨_ | e, s1⟩
    · rw [hr] at h1
      simp only [ReadAutoconnectTags, hr]
      rw [ih s1]; exact h1
    · rw [hr] at h1
      simp only [ReadAutoconnectTags, hr]
      exact h1

/-- One round of `RefreshIPCache` keeps the log lines written so far. -/
theorem RefreshLink_logs (SI : ServerInstance) (s : ConfState) (L : Link) (m : String)
    (hm : m ∈ s.Logs) : m ∈ (RefreshLink SI s L).Logs := by
  unfold RefreshLink
  by_cases hg : L.IPAddr = "" ∨ L.RecvPass = "" ∨ L.SendPass = "" ∨ L.Name = "" ∨ L.Port = 0
  · rw [if_pos hg]
    by_cases hn : L.Name = "" <;> simp [hn, hm, ConfState.Log]
  · rw [if_neg hg]
    by_cases hmask : L.AllowMask.length ≠ 0 <;>
      by_cases ha : SI.aptosa L.IPAddr L.Port = true <;>
      simp [hmask, ha, hm, ConfState.pushValidIP]

/-- The loop of `RefreshIPCache` keeps the log lines written so far. -/
theorem RefreshLinks_logs (SI : ServerInstance) (blocks : List Link) (m : String) :
    ∀ s : ConfState, m ∈ s.Logs → m ∈ (blocks.foldl (RefreshLink SI) s).Logs := by
  induction blocks with
  | nil => intro s hm; simpa using hm
  | cons L rest ih =>
    intro s hm
    rw [List.foldl_cons]
    exact ih _ (RefreshLink_logs SI s L m hm)

/-- The loop of `RefreshIPCache` logs that it ignores a named block without a
port. -/
theorem RefreshLinks_ignored (SI : ServerInstance) (blocks : List Link) (L : Link)
    (hL : L ∈ blocks) (hname : L.Name ≠ "") (hport : L.Port = 0) :
    ∀ s : ConfState,
      "m_spanningtree: Ignoring a link block missing recvpass, sendpass, port or ipaddr." ∈
        (blocks.foldl (RefreshLink SI) s).Logs := by
  induction blocks with
  | nil => simp at hL
  | cons B rest ih =>
    intro s
    rw [List.foldl_cons]
    rcases List.mem_cons.1 hL with rfl | hrest
    · apply RefreshLinks_logs
      unfold RefreshLink
      simp [hport, hname, ConfState.Log]
    · exact ih hrest _

/-! ## Theorems: blocks without an address or without a port -/

/-- C11: the code breaks the claim.  For a link block with an empty address and
otherwise valid fields the link loop does what the claim says: it returns without
an exception, pushes `*` onto the allow-list and logs that any address may now
connect.  The load as a whole succeeds and stores the block with the address `*`,
but its closing `RefreshIPCache` clears the allow-list and does not put `*` back:
with port 7000 and an `aptosa` that does not take `*` for an address it only
starts a lookup of `*`, with port 0 it ignores the block whatever `aptosa` says.
In both runs the allow-list left by the load is empty and a connection from
`203.0.113.5` is denied. -/
theorem ReadConfiguration_empty_address_dropped :
    ((ReadLinkTag (sampleOpenTag 7000) sampleState).1 = none ∧
      (ReadLinkTag (sampleOpenTag 7000) sampleState).2.Utils.ValidIPs
        = sampleState.Utils.ValidIPs ++ ["*"] ∧
      ("Configuration warning: Link block hub.example has no IP defined! " ++
        "This will allow any IP to connect as this server, and MAY not be what you want.") ∈
        (ReadLinkTag (sampleOpenTag 7000) sampleState).2.Logs) ∧
    ((ReadConfiguration sampleInstance (sampleConf [sampleOpenTag 7000]) true
        sampleState).thrown = none ∧
      (ReadConfiguration sampleInstance (sampleConf [sampleOpenTag 7000]) true
        sampleState).after.Utils.LinkBlocks
        = [{ Link.ofTag (sampleOpenTag 7000) with IPAddr := "*" }] ∧
      ("Configuration warning: Link block hub.example has no IP defined! " ++
        "This will allow any IP to connect as this server, and MAY not be what you want.") ∈
        (ReadConfiguration sampleInstance (sampleConf [sampleOpenTag 7000]) true
          sampleState).after.Logs ∧
      sampleInstance.aptosa "*" 7000 = false ∧
      (ReadConfiguration sampleInstance (sampleConf [sampleOpenTag 7000]) true
        sampleState).after.Utils.ValidIPs = [] ∧
      (ReadConfiguration sampleInstance (sampleConf [sampleOpenTag 7000]) true
        sampleState).after.Resolvers = ["*"] ∧
      (OnAcceptReady sampleInstance
        (ReadConfiguration sampleInstance (sampleConf [sampleOpenTag 7000]) true
          sampleState).after.Utils "203.0.113.5").created = false) ∧
    ((ReadConfiguration { sampleInstance with aptosa := fun _ _ => true }
        (sampleConf [sampleOpenTag 0]) true sampleState).thrown = none ∧
      (ReadConfiguration { sampleInstance with aptosa := fun _ _ => true }
        (sampleConf [sampleOpenTag 0]) true sampleState).after.Utils.LinkBlocks
        = [{ Link.ofTag (sampleOpenTag 0) with IPAddr := "*" }] ∧
      (ReadConfiguration { sampleInstance with aptosa := fun _ _ => true }
        (sampleConf [sampleOpenTag 0]) true sampleState).after.Utils.ValidIPs = [] ∧
      (OnAcceptReady { sampleInstance with aptosa := fun _ _ => true }
        (ReadConfiguration { sampleInstance with aptosa := fun _ _ => true }
          (sampleConf [sampleOpenTag 0]) true sampleState).after.Utils
        "203.0.113.5").created = false) := by
  decide

/-- C12, as the code has it: in a configuration whose tags are all valid, a link
tag with an address and port 0 loads without an exception, logs the warning that
the block cannot be connected to, and its block is kept in the link list; but
`RefreshIPCache` logs that it ignores the block and pushes nothing for it, so the
allow-list, and every admission, is what the same configuration without the tag
leaves. -/
theorem ReadConfiguration_port_zero (SI : ServerInstance) (Conf : ServerConfig)
    (rebind : Bool) (s : ConfState) (pre post : List LinkTag) (t : LinkTag)
    (hlinks : Conf.links = pre ++ t :: post)
    (hvalid : ∀ x ∈ Conf.links,
      '.' ∈ x.name.data ∧ x.name.length ≤ 64 ∧ x.recvpass ≠ "" ∧ x.sendpass ≠ "")
    (hauto : ∀ a ∈ Conf.autoconnects, 0 < a.period ∧ spacesepstream a.server ≠ [])
    (hip : t.ipaddr ≠ "") (hport : t.port = 0) :
    (ReadConfiguration SI Conf rebind s).thrown = none ∧
    Link.ofTag t ∈ (ReadConfiguration SI Conf rebind s).after.Utils.LinkBlocks ∧
    ("Configuration warning: Link block " ++ t.name ++
      " has no port defined, you will not be able to /connect it.") ∈
      (ReadConfiguration SI Conf rebind s).after.Logs ∧
    "m_spanningtree: Ignoring a link block missing recvpass, sendpass, port or ipaddr." ∈
      (ReadConfiguration SI Conf rebind s).after.Logs ∧
    (ReadConfiguration SI Conf rebind s).after.Utils.ValidIPs =
      (ReadConfiguration SI { Conf with links := pre ++ post } rebind s).after.Utils.ValidIPs ∧
    ∀ incomingip : String,
      OnAcceptReady SI (ReadConfiguration SI Conf rebind s).after.Utils incomingip =
        OnAcceptReady SI
          (ReadConfiguration SI { Conf with links := pre ++ post } rebind s).after.Utils
          incomingip := by
  have hnone := ReadConfiguration_succeeds SI Conf rebind s hvalid hauto
  obtain ⟨hl, _, _⟩ := ReadConfiguration_success_lists SI Conf rebind s hnone
  obtain ⟨s0, s1, s2, _, _, hr1, hr2, hafter⟩ :=
    ReadConfiguration_success_form SI Conf rebind s hnone
  have htmem : t ∈ Conf.links := by rw [hlinks]; simp
  obtain ⟨v1, _, _, _⟩ := hvalid t htmem
  have hstored : LinkTag.stored t = Link.ofTag t := by
    unfold LinkTag.stored
    rw [if_neg hip]
    rfl
  have hmem : Link.ofTag t ∈ (ReadConfiguration SI Conf rebind s).after.Utils.LinkBlocks := by
    rw [hl, ← hstored]
    exact List.mem_map.2 ⟨t, htmem, rfl⟩
  have heq := ReadConfiguration_without_tag SI Conf rebind s pre post t hlinks hvalid hauto
    (allowEntries_port_zero SI t hport)
  refine ⟨hnone, hmem, ?_, ?_, heq, fun ip => OnAcceptReady_congr SI _ _ ip heq⟩
  · have hw := ReadLinkTags_port_warning pre post t hport s0 (by rw [← hlinks, hr1])
    rw [← hlinks, hr1] at hw
    have hw2 : ("Configuration warning: Link block " ++ t.name ++
        " has no port defined, you will not be able to /connect it.") ∈ s2.Logs := by
      have := ReadAutoconnectTags_logs SI Conf.autoconnects s1
      rw [hr2] at this
      rw [this]; exact hw
    rw [hafter]
    exact RefreshLinks_logs SI _ _ _ hw2
  · have hmem2 : Link.ofTag t ∈ s2.Utils.LinkBlocks := by
      have := (RefreshIPCache_spec SI s2).2.1
      rw [← this, ← hafter]; exact hmem
    rw [hafter]
    exact RefreshLinks_ignored SI _ (Link.ofTag t) hmem2
      (by unfold Link.ofTag; exact name_ne_empty_of_dot v1)
      (by unfold Link.ofTag; exact hport) _

/-- `ReadConfiguration_port_zero` on a configuration with a usual block and a
block for `192.0.2.2` without a port. -/
theorem ReadConfiguration_port_zero_witness :
    (sampleConf [sampleLinkTag "far.example", samplePortlessTag]).links
      = [sampleLinkTag "far.example"] ++ samplePortlessTag :: [] ∧
    samplePortlessTag.ipaddr ≠ "" ∧ samplePortlessTag.port = 0 ∧
    (ReadConfiguration sampleInstance
      (sampleConf [sampleLinkTag "far.example", samplePortlessTag]) true
      sampleState).thrown = none ∧
    Link.ofTag samplePortlessTag ∈
      (ReadConfiguration sampleInstance
        (sampleConf [sampleLinkTag "far.example", samplePortlessTag]) true
        sampleState).after.Utils.LinkBlocks :=
  ⟨rfl, by decide, rfl,
   (ReadConfiguration_port_zero sampleInstance
      (sampleConf [sampleLinkTag "far.example", samplePortlessTag]) true sampleState
      [sampleLinkTag "far.example"] [] samplePortlessTag rfl (by decide) (by decide)
      (by decide) rfl).1,
   (ReadConfiguration_port_zero sampleInstance
      (sampleConf [sampleLinkTag "far.example", samplePortlessTag]) true sampleState
      [sampleLinkTag "far.example"] [] samplePortlessTag rfl (by decide) (by decide)
      (by decide) rfl).2.1⟩

/-- C12 as stated fails: a configuration whose only link block has the literal
address `192.0.2.2` and port 0 loads and keeps the block, but the allow-list left
by the load is empty and a connection from `192.0.2.2` is denied. -/
theorem ReadConfiguration_port_zero_denied :
    sampleInstance.aptosa "192.0.2.2" 0 = true ∧
    (ReadConfiguration sampleInstance (sampleConf [samplePortlessTag]) true
      sampleState).thrown = none ∧
    (ReadConfiguration sampleInstance (sampleConf [samplePortlessTag]) true
      sampleState).after.Utils.LinkBlocks = [Link.ofTag samplePortlessTag] ∧
    (ReadConfiguration sampleInstance (sampleConf [samplePortlessTag]) true
      sampleState).after.Utils.ValidIPs = [] ∧
    (OnAcceptReady sampleInstance
      (ReadConfiguration sampleInstance (sampleConf [samplePortlessTag]) true
        sampleState).after.Utils "192.0.2.2").created = false := by
  decide

/-! ## Theorems: autoconnect records -/

/-- Joining with a separator, unfolded at the first element. -/
theorem intercalate_go_append (sep : String) (rest : List String) :
    ∀ head acc : String,
      String.intercalate.go (head ++ acc) sep rest = head ++ String.intercalate.go acc sep rest := by
  induction rest with
  | nil => intro head acc; rfl
  | cons a t ih =>
    intro head acc
    simp only [String.intercalate.go]
    rw [← ih head (acc ++ sep ++ a)]
    simp [String.append_assoc]

/-- Joining at least two strings puts the separator after the first. -/
theorem intercalate_cons_cons (sep a b : String) (rest : List String) :
    sep.intercalate (a :: b :: rest) = a ++ sep ++ sep.intercalate (b :: rest) := by
  simp only [String.intercalate, String.intercalate.go]
  rw [← intercalate_go_append sep rest (a ++ sep) b]

/-- The scanner reads a word without a space into the token it is building. -/
theorem spaceTokens_word (w : List Char) (hw : ' ' ∉ w) :
    ∀ cur rest : List Char, spaceTokens cur (w ++ rest) = spaceTokens (cur ++ w) rest := by
  induction w with
  | nil => intro cur rest; simp
  | cons c cs ih =>
    intro cur rest
    have hc : c ≠ ' ' := fun h => hw (h ▸ List.mem_cons_self _ _)
    have hcs : ' ' ∉ cs := fun h => hw (List.mem_cons_of_mem _ h)
    rw [List.cons_append, spaceTokens, if_neg hc, ih hcs]
    simp

/-- The tokens of names joined by single spaces are the names, in order. -/
theorem spacesepstream_join (names : List String)
    (hnames : ∀ n ∈ names, n ≠ "" ∧ ' ' ∉ n.data) :
    spacesepstream (" ".intercalate names) = names := by
  induction names with
  | nil => rfl
  | cons n rest ih =>
    obtain ⟨hne, hsp⟩ := hnames n (List.mem_cons_self _ _)
    have hdata : n.data ≠ [] := by
      intro h
      apply hne
      cases n
      simp_all
    cases rest with
    | nil =>
      have h := spaceTokens_word n.data hsp [] []
      simp only [List.append_nil, List.nil_append] at h
      unfold spacesepstream
      simp only [String.intercalate, String.intercalate.go]
      rw [h, spaceTokens, if_neg hdata]
    | cons m rest2 =>
      have ih2 := ih (fun x hx => hnames x (List.mem_cons_of_mem _ hx))
      unfold spacesepstream at ih2 ⊢
      rw [intercalate_cons_cons]
      simp only [String.data_append]
      rw [List.append_assoc, spaceTokens_word n.data hsp, List.nil_append,
        List.singleton_append, spaceTokens, if_pos rfl, if_neg hdata, ih2]

/-- C13: after a load that returns normally the autoconnect list holds one
record per autoconnect tag, in order, with the tag's period, the tokens of its
server string as candidates, position -1 and next connect time `Time() + period`;
every record has a positive period and at least one candidate.  A configuration
with an autoconnect tag whose period is not positive or whose server string has
no token makes the load throw.  The tokens of names joined by single spaces are
those names in order. -/
theorem ReadConfiguration_autoconnect (SI : ServerInstance) (Conf : ServerConfig)
    (rebind : Bool) (s : ConfState) :
    ((ReadConfiguration SI Conf rebind s).thrown = none →
      (ReadConfiguration SI Conf rebind s).after.Utils.AutoconnectBlocks =
        Conf.autoconnects.map (fun tag =>
          { Period := tag.period, NextConnectTime := SI.Time + tag.period, position := -1,
            servers := spacesepstream tag.server }) ∧
      ∀ A ∈ (ReadConfiguration SI Conf rebind s).after.Utils.AutoconnectBlocks,
        0 < A.Period ∧ A.servers ≠ [] ∧ A.NextConnectTime = SI.Time + A.Period) ∧
    ((∃ tag ∈ Conf.autoconnects, tag.period ≤ 0 ∨ spacesepstream tag.server = []) →
      (ReadConfiguration SI Conf rebind s).thrown ≠ none) ∧
    (∀ names : List String, (∀ n ∈ names, n ≠ "" ∧ ' ' ∉ n.data) →
      spacesepstream (" ".intercalate names) = names) := by
  refine ⟨?_, ?_, spacesepstream_join⟩
  · intro hnone
    have hl := (ReadConfiguration_success_lists SI Conf rebind s hnone).2.1
    refine ⟨hl, ?_⟩
    intro A hA
    rw [hl] at hA
    obtain ⟨tag, htag, rfl⟩ := List.mem_map.1 hA
    have hok : ¬ tag.fatal := by
      intro hf
      exact (ReadConfiguration_thrown_iff SI Conf rebind s).2 (Or.inr ⟨tag, htag, hf⟩) hnone
    unfold AutoconnectTag.fatal at hok
    unfold AutoconnectTag.stored
    refine ⟨?_, ?_, rfl⟩
    · by_contra h
      exact hok (Or.inl (by simpa using h))
    · exact fun h => hok (Or.inr h)
  · rintro ⟨tag, htag, hf⟩
    exact (ReadConfiguration_thrown_iff SI Conf rebind s).2 (Or.inr ⟨tag, htag, hf⟩)

/-- `ReadConfiguration_autoconnect` on the sample configuration, whose
autoconnect tag has period 60 and the servers `hub.example far.example`, and on
one with a period of 0. -/
theorem ReadConfiguration_autoconnect_witness :
    ((ReadConfiguration sampleInstance (sampleConf [sampleLinkTag "hub.example"]) true
        sampleState).thrown = none ∧
      (ReadConfiguration sampleInstance (sampleConf [sampleLinkTag "hub.example"]) true
        sampleState).after.Utils.AutoconnectBlocks =
        [{ Period := 60, NextConnectTime := 160, position := -1,
           servers := ["hub.example", "far.example"] }]) ∧
    (ReadConfiguration sampleInstance
      { sampleConf [] with autoconnects := [{ period := 0, server := "hub.example" }] } true
      sampleState).thrown ≠ none ∧
    spacesepstream (" ".intercalate ["hub.example", "far.example"])
      = ["hub.example", "far.example"] :=
  ⟨⟨by decide,
    ((ReadConfiguration_autoconnect sampleInstance (sampleConf [sampleLinkTag "hub.example"])
      true sampleState).1 (by decide)).1⟩,
   (ReadConfiguration_autoconnect sampleInstance
      { sampleConf [] with autoconnects := [{ period := 0, server := "hub.example" }] } true
      sampleState).2.1 ⟨{ period := 0, server := "hub.example" }, by simp, Or.inl (by decide)⟩,
   (ReadConfiguration_autoconnect sampleInstance (sampleConf []) true sampleState).2.2
     ["hub.example", "far.example"] (by decide)⟩

/-! ## Theorems: command builder -/

/-- The tag loop appends, to what it has, the separator and then the tags joined
by `;`, each as `key` or `key=value`. -/
theorem tagLoop_spec (tags : List (String × String)) (hne : tags ≠ []) :
    ∀ (separator : Char) (taglist : String),
      tagLoop tags separator taglist =
        taglist ++ String.singleton separator ++
          ";".intercalate (tags.map (fun t => if t.2 = "" then t.1 else t.1 ++ "=" ++ t.2)) := by
  induction tags with
  | nil => exact absurd rfl hne
  | cons t rest ih =>
    intro separator taglist
    obtain ⟨key, value⟩ := t
    have hsemi : String.singleton ';' = ";" := rfl
    have heq : String.singleton '=' = "=" := rfl
    cases rest with
    | nil =>
      by_cases hv : value = ""
      · simp [tagLoop, hv, String.intercalate, String.intercalate.go]
      · simp [tagLoop, hv, heq, String.intercalate, String.intercalate.go, String.append_assoc]
    | cons u rest2 =>
      rw [tagLoop, ih (by simp)]
      simp only [List.map_cons]
      rw [intercalate_cons_cons, hsemi]
      by_cases hv : value = ""
      · simp [hv, String.append_assoc]
      · simp [hv, heq, String.append_assoc]

/-- C18: `UpdateTags` replaces the tag part at the head of the message and
nothing else: the new content is the serialized tag list, empty without tags and
otherwise `@`, the tags in map order joined by `;`, each as `key` or `key=value`
when the value is not empty, and one space, followed by the old content without
its first `tagsize` characters; `tagsize` becomes the length of the serialized
list, the tags stay, and a second call changes nothing.  This holds for every
state, also when `tagsize` exceeds the length of the content. -/
theorem UpdateTags_spec (b : CmdBuilder) :
    b.UpdateTags.content =
      (if b.tags = [] then ""
       else "@" ++ ";".intercalate
          (b.tags.map (fun t => if t.2 = "" then t.1 else t.1 ++ "=" ++ t.2)) ++ " ") ++
        String.mk (b.content.data.drop b.tagsize) ∧
    b.UpdateTags.tagsize =
      (if b.tags = [] then ""
       else "@" ++ ";".intercalate
          (b.tags.map (fun t => if t.2 = "" then t.1 else t.1 ++ "=" ++ t.2)) ++ " ").length ∧
    b.UpdateTags.tags = b.tags ∧
    b.UpdateTags.UpdateTags = b.UpdateTags := by
  have hser : buildTaglist b.tags =
      (if b.tags = [] then ""
       else "@" ++ ";".intercalate
          (b.tags.map (fun t => if t.2 = "" then t.1 else t.1 ++ "=" ++ t.2)) ++ " ") := by
    unfold buildTaglist
    by_cases hn : b.tags = []
    · simp [hn]
    · have hat : String.singleton '@' = "@" := rfl
      have hsp : String.singleton ' ' = " " := rfl
      rw [if_pos hn, if_neg hn, tagLoop_spec b.tags hn, hat, hsp]
      simp
  have hidem : ∀ (T content : String) (n : Nat),
      replaceHead (replaceHead content n T) T.length T = replaceHead content n T := by
    intro T content n
    unfold replaceHead
    have : (T ++ String.mk (content.data.drop n)).data.drop T.length = content.data.drop n := by
      rw [String.data_append]
      exact List.drop_left _ _
    rw [this]
  refine ⟨?_, ?_, rfl, ?_⟩
  · rw [← hser]; rfl
  · rw [← hser]; rfl
  · unfold CmdBuilder.UpdateTags
    simp only [hidem]

/-- C18 at the sample builder: the stale tag part `@a=1 ` is replaced by
`@msgid=42;bot `. -/
theorem UpdateTags_sample :
    sampleBuilder.UpdateTags =
      { content := "@msgid=42;bot :001 PING x", tags := [("msgid", "42"), ("bot", "")],
        tagsize := 14 } := by
  decide

end SpanningTree

namespace ChanHistory

/-! ## Theorems: channel history -/

/-- C17: the history list never holds more lines than its limit.  After
`OnUserPostMessage` a list that was within its limit still is, with the limit
unchanged; when the message is recorded (channel target, no status, not a CTCP)
the lines are the old ones with the new line appended, the oldest dropped when
that exceeds the limit.  After an `OnSet` that returns `MODEACTION_ALLOW` the
channel has a list whose limit is the number before the colon capped at
`maxlines`, so at most `maxlines` and at least 1 when `maxlines` is, whose lines
are the newest lines of the old list in their order, and which is within its
limit. -/
theorem history_within_limit (H : ModeHelpers) (maxlines : Nat) (sourceLocal : Bool)
    (parameter : String) (now : Int) (fullhost : String) (target : MessageTarget)
    (details : MessageDetails) (list : Option HistoryList)
    (hinv : ∀ l, list = some l → l.lines.length ≤ l.maxlen) :
    (∀ l2, OnUserPostMessage now fullhost target details list = some l2 →
      l2.lines.length ≤ l2.maxlen ∧
      ∃ l, list = some l ∧ l2.maxlen = l.maxlen ∧ l2.maxtime = l.maxtime ∧
        l2.lines =
          (if target.type = TargetType.TYPE_CHANNEL ∧ target.status = Char.ofNat 0 ∧
              details.IsCTCP = false then
            (if l.lines.length + 1 > l.maxlen then
              (l.lines ++ [HistoryItem.new now fullhost details]).tail
             else l.lines ++ [HistoryItem.new now fullhost details])
           else l.lines)) ∧
    ((OnSet H maxlines sourceLocal list parameter).action = ModeAction.MODEACTION_ALLOW →
      ∃ (h2 : HistoryList) (colon : Nat),
        (OnSet H maxlines sourceLocal list parameter).history = some h2 ∧
        find parameter.data ':' = some colon ∧
        h2.maxlen = min (H.ConvToNum (String.mk (parameter.data.take colon))) maxlines ∧
        h2.maxlen ≤ maxlines ∧
        (1 ≤ maxlines → 1 ≤ h2.maxlen) ∧
        h2.lines =
          (match list with
           | some h => h.lines.drop (h.lines.length - h2.maxlen)
           | none => []) ∧
        h2.lines.length ≤ h2.maxlen) := by
  constructor
  · intro l2 hl2
    unfold OnUserPostMessage at hl2
    cases list with
    | none =>
      simp at hl2
    | some l =>
      have hl := hinv l rfl
      by_cases hrec : target.type = TargetType.TYPE_CHANNEL ∧ target.status = Char.ofNat 0 ∧
          details.IsCTCP = false
      · rw [if_pos hrec] at hl2
        dsimp only at hl2
        by_cases hov : (l.lines ++ [HistoryItem.new now fullhost details]).length > l.maxlen
        · rw [if_pos hov] at hl2
          cases hl2
          have hov2 : l.lines.length + 1 > l.maxlen := by simpa using hov
          refine ⟨?_, l, rfl, rfl, rfl, ?_⟩
          · simp only [List.length_tail, List.length_append, List.length_singleton]
            omega
          · rw [if_pos hrec, if_pos hov2]
        · rw [if_neg hov] at hl2
          cases hl2
          have hov2 : ¬ l.lines.length + 1 > l.maxlen := by simpa using hov
          refine ⟨?_, l, rfl, rfl, rfl, ?_⟩
          · simp only [List.length_append, List.length_singleton]
            omega
          · rw [if_pos hrec, if_neg hov2]
      · rw [if_neg hrec] at hl2
        have hsame : l = l2 := Option.some.inj hl2
        subst hsame
        exact ⟨hl, l, rfl, rfl, rfl, by rw [if_neg hrec]⟩
  · intro hallow
    unfold OnSet at hallow ⊢
    cases hfind : find parameter.data ':' with
    | none => rw [hfind] at hallow; simp at hallow
    | some colon =>
      rw [hfind] at hallow
      dsimp only at hallow ⊢
      by_cases hdur : sourceLocal = true ∧
          ((String.mk (parameter.data.drop (colon + 1))).length > 10 ∨
            H.IsValidDuration (String.mk (parameter.data.drop (colon + 1))) = false)
      · rw [if_pos hdur] at hallow; simp at hallow
      · rw [if_neg hdur] at hallow ⊢
        cases htime : H.Duration (String.mk (parameter.data.drop (colon + 1))) with
        | none => rw [htime] at hallow; simp at hallow
        | some time =>
          rw [htime] at hallow
          dsimp only at hallow ⊢
          by_cases hlen : H.ConvToNum (String.mk (parameter.data.take colon)) = 0 ∨
              (H.ConvToNum (String.mk (parameter.data.take colon)) > maxlines ∧
                sourceLocal = true)
          · rw [if_pos hlen] at hallow; simp at hallow
          · rw [if_neg hlen]
            have hpos : H.ConvToNum (String.mk (parameter.data.take colon)) ≠ 0 :=
              fun h => hlen (Or.inl h)
            have hmin : (if H.ConvToNum (String.mk (parameter.data.take colon)) > maxlines
                then maxlines else H.ConvToNum (String.mk (parameter.data.take colon))) =
                min (H.ConvToNum (String.mk (parameter.data.take colon))) maxlines := by
              split <;> omega
            rw [hmin]
            cases list with
            | none =>
              refine ⟨_, colon, rfl, rfl, rfl, ?_, ?_, rfl, ?_⟩
              · exact Nat.min_le_right _ _
              · intro h1; dsimp only; omega
              · simp
            | some h =>
              refine ⟨_, colon, rfl, rfl, rfl, ?_, ?_, ?_, ?_⟩
              · exact Nat.min_le_right _ _
              · intro h1; dsimp only; omega
              · dsimp only
                split
                · rfl
                · rename_i hge
                  have : h.lines.length -
                      min (H.ConvToNum (String.mk (parameter.data.take colon))) maxlines = 0 := by
                    omega
                  rw [this, List.drop_zero]
              · dsimp only
                split
                · simp only [List.length_drop]
                  omega
                · omega

/-- `history_within_limit` on the sample list, which is at its limit of three:
a fourth message pushes the oldest line out, and `+H 2:1h` keeps the two newest
lines. -/
theorem history_within_limit_witness :
    (∀ l, some sampleHistory = some l → l.lines.length ≤ l.maxlen) ∧
    OnUserPostMessage 200 "alice!a@far.example" sampleTarget sampleDetails (some sampleHistory)
      = some { sampleHistory with
          lines := [sampleLine "two", sampleLine "three",
            HistoryItem.new 200 "alice!a@far.example" sampleDetails] } ∧
    ({ sampleHistory with
        lines := [sampleLine "two", sampleLine "three",
          HistoryItem.new 200 "alice!a@far.example" sampleDetails] } : HistoryList).lines.length
      ≤ 3 ∧
    OnSet sampleHelpers 50 true (some sampleHistory) "2:1h"
      = { action := ModeAction.MODEACTION_ALLOW,
          history := some { lines := [sampleLine "two", sampleLine "three"], maxlen := 2,
                            maxtime := 3600 },
          numeric := false } :=
  ⟨fun l h => by cases h; decide,
   by decide,
   ((history_within_limit sampleHelpers 50 true "2:1h" 200 "alice!a@far.example" sampleTarget
      sampleDetails (some sampleHistory) (fun l h => by cases h; decide)).1 _ (by decide)).1,
   by decide⟩

end ChanHistory
